import Mathlib

/-!
# TableBack Reservation/Waitlist Automation Engine — verification development

Shallow embedding of the reservation/waitlist automation engine of the
TableBack repository (source file `src/context/ReservationContext.tsx`,
the persistence-backed `ReservationProvider`, together with the WhatsApp
webhook reply classifier).

Conventions of the embedding:
* JavaScript numbers (timestamps in milliseconds, minute settings) are
  modelled as rationals `ℚ`; counters are `Nat`.
* JavaScript `Set<string>` / `Map<string, _>` refs are modelled as lists
  (`List String`, association lists `List (String × _)`) with the literal
  add/delete/set/get operations.
* `undefined`-able fields (`createdAt?`, `lastReminderAt?`, ...) are
  `Option` fields; `x ?? d` is `Option.getD`.
* React `setReservations(prev => prev.map ...)` updaters become pure list
  transformations applied atomically per tick, matching the cooperative
  single-writer model of the engine.
* Timezone lookups (`Intl.DateTimeFormat` for Europe/Brussels) are not
  computable in the embedding; the UTC timestamp of the current Brussels
  calendar day's midnight and the Brussels-projected "now" are passed as
  explicit parameters to the ticks.
-/

namespace TableBack

/-- Reservation status, `src/data/reservations.ts`. -/
inductive RStatus where
  | confirmed
  | attention
  | expired
  | processing
  | filled
  | unfilled
deriving DecidableEq, Repr

/-- Waitlist entry status, `src/data/waitlist.ts`. -/
inductive WStatus where
  | waiting
  | contacted
  | declined
deriving DecidableEq, Repr

/-- `Reservation`, `src/data/reservations.ts`. -/
structure Reservation where
  id : String
  name : String
  phone : String
  time : String
  createdAt : Option ℚ
  partySize : Nat
  status : RStatus
  filledFromWaitlist : Bool
  originalGuestName : Option String
  estimatedRevenue : ℚ
  reminderCount : Nat
  lastReminderAt : Option ℚ
deriving DecidableEq, Repr

/-- `WaitlistEntry`, `src/data/waitlist.ts` (ids are produced by
`crypto.randomUUID()` in the provider, hence strings). -/
structure WaitlistEntry where
  id : String
  name : String
  phone : String
  partySize : Nat
  status : Option WStatus
  createdAt : Option ℚ
  lastContactedAt : Option ℚ
deriving DecidableEq, Repr

/-- `entry.status ?? "waiting"`. -/
def WaitlistEntry.statusD (w : WaitlistEntry) : WStatus :=
  w.status.getD .waiting

/-- `entry.createdAt ?? 0`, the sort key used by both matching flows. -/
def WaitlistEntry.createdAtD (w : WaitlistEntry) : ℚ :=
  w.createdAt.getD 0

/-- `reservation.createdAt ?? 0`, the sort key of the manual contact flow. -/
def Reservation.createdAtD (r : Reservation) : ℚ :=
  r.createdAt.getD 0

/-! ## JS `Set<string>` and `Map<string, α>` refs as lists -/

/-- `set.add x` (membership-idempotent). -/
def setInsert (s : List String) (x : String) : List String :=
  if x ∈ s then s else x :: s

/-- `set.delete x`. -/
def setDelete (s : List String) (x : String) : List String :=
  s.filter (fun y => y ≠ x)

/-- `map.set k v`. -/
def mapSet {α : Type} (m : List (String × α)) (k : String) (v : α) :
    List (String × α) :=
  (k, v) :: m.filter (fun p => p.1 ≠ k)

/-- `map.delete k`. -/
def mapDelete {α : Type} (m : List (String × α)) (k : String) :
    List (String × α) :=
  m.filter (fun p => p.1 ≠ k)

/-- `map.get k` (first binding wins, as for `List.find?`). -/
def mapLookup {α : Type} : List (String × α) → String → Option α
  | [], _ => none
  | p :: t, k => if p.1 = k then some p.2 else mapLookup t k

theorem mem_setInsert {s : List String} {x a : String} :
    a ∈ setInsert s x ↔ a = x ∨ a ∈ s := by
  unfold setInsert
  split
  · constructor
    · exact fun h => Or.inr h
    · rintro (rfl | h) <;> assumption
  · simp [List.mem_cons]

theorem mem_setDelete {s : List String} {x a : String} :
    a ∈ setDelete s x ↔ a ∈ s ∧ a ≠ x := by
  simp [setDelete, List.mem_filter]

theorem mapLookup_filter_ne {α : Type} (m : List (String × α)) {k k' : String}
    (h : k' ≠ k) :
    mapLookup (m.filter (fun p => p.1 ≠ k)) k' = mapLookup m k' := by
  induction m with
  | nil => rfl
  | cons p t ih =>
    by_cases hp : p.1 = k
    · rw [List.filter_cons_of_neg (by simp [hp]), ih]
      have : ¬ p.1 = k' := by rw [hp]; exact fun hh => h hh.symm
      simp [mapLookup, this]
    · rw [List.filter_cons_of_pos (by simp [hp])]
      by_cases hk' : p.1 = k'
      · simp [mapLookup, hk']
      · simp only [mapLookup, if_neg hk']
        exact ih

theorem mapLookup_mapSet_self {α : Type} (m : List (String × α)) (k : String)
    (v : α) : mapLookup (mapSet m k v) k = some v := by
  simp [mapLookup, mapSet]

theorem mapLookup_mapSet_ne {α : Type} (m : List (String × α)) {k k' : String}
    (v : α) (h : k' ≠ k) : mapLookup (mapSet m k v) k' = mapLookup m k' := by
  simp only [mapSet, mapLookup, if_neg (fun hh : k = k' => h hh.symm)]
  exact mapLookup_filter_ne m h

theorem mapLookup_mapDelete_self {α : Type} (m : List (String × α))
    (k : String) : mapLookup (mapDelete m k) k = none := by
  induction m with
  | nil => rfl
  | cons p t ih =>
    by_cases hp : p.1 = k
    · rw [mapDelete, List.filter_cons_of_neg (by simp [hp])]
      exact ih
    · rw [mapDelete, List.filter_cons_of_pos (by simp [hp])]
      simp only [mapLookup, if_neg hp]
      exact ih

theorem mapLookup_mapDelete_ne {α : Type} (m : List (String × α))
    {k k' : String} (h : k' ≠ k) :
    mapLookup (mapDelete m k) k' = mapLookup m k' :=
  mapLookup_filter_ne m h

theorem mapLookup_mem {α : Type} {m : List (String × α)} {k : String} {v : α}
    (h : mapLookup m k = some v) : (k, v) ∈ m := by
  induction m with
  | nil => simp [mapLookup] at h
  | cons p t ih =>
    by_cases hp : p.1 = k
    · simp only [mapLookup, if_pos hp] at h
      have hpv : p = (k, v) := by
        cases p
        simp only at hp
        simp only [Option.some.injEq] at h
        simp [hp, h]
      rw [hpv]
      exact List.mem_cons_self _ _
    · simp only [mapLookup, if_neg hp] at h
      exact List.mem_cons_of_mem _ (ih h)

theorem mem_mapDelete {α : Type} {m : List (String × α)} {k : String}
    {p : String × α} (h : p ∈ mapDelete m k) : p ∈ m := by
  exact List.mem_of_mem_filter h

theorem mem_mapSet {α : Type} {m : List (String × α)} {k : String} {v : α}
    {p : String × α} (h : p ∈ mapSet m k v) : p = (k, v) ∨ p ∈ m := by
  simp only [mapSet, List.mem_cons] at h
  rcases h with h | h
  · exact Or.inl h
  · exact Or.inr (List.mem_of_mem_filter h)

/-! ## Inbound reply classification

`src/app/api/whatsapp/webhook/route.ts`: `normalizeReply`, `isPositiveReply`,
`isNegativeReply`, and the `confirmed` / `declined` assignment in `POST`.
The Unicode NFD decomposition step of `normalizeReply` is the identity on
strings without precomposed characters; the embedding keeps its companion
combining-mark stripping (`/[̀-ͯ]/g`) and models `toUpperCase`
on the basic Latin range (`Char.toUpper`). -/

/-- ASCII whitespace recognised by JS `trim` / `\s` (modelled on the ASCII
range). -/
def jsWhitespace (c : Char) : Bool :=
  c = ' ' || c = '\t' || c = '\n' || c = '\r' || c = '\x0b' || c = '\x0c'

/-- `String.prototype.trim` on a character list. -/
def jsTrimList (l : List Char) : List Char :=
  ((l.dropWhile jsWhitespace).reverse.dropWhile jsWhitespace).reverse

/-- `String.prototype.trim`. -/
def jsTrim (s : String) : String :=
  ⟨jsTrimList s.data⟩

/-- Unicode combining diacritical marks U+0300–U+036F, stripped by
`normalizeReply` after NFD decomposition. -/
def isCombiningMark (c : Char) : Bool :=
  0x300 ≤ c.toNat && c.toNat ≤ 0x36F

/-- `[^A-Z0-9\s]` after upper-casing: characters kept verbatim by the
punctuation-collapsing replace. -/
def isReplyKeptChar (c : Char) : Bool :=
  ('A' ≤ c && c ≤ 'Z') || ('0' ≤ c && c ≤ '9') || jsWhitespace c

/-- `.replace(/\s+/g, " ")`: collapse every maximal whitespace run to a
single space. -/
def collapseWsAux : List Char → Bool → List Char
  | [], _ => []
  | c :: rest, prevWs =>
    if jsWhitespace c then
      if prevWs then collapseWsAux rest true
      else ' ' :: collapseWsAux rest true
    else c :: collapseWsAux rest false

/-- `normalizeReply` (webhook route): trim, upper-case, strip combining
marks, replace non-alphanumerics by spaces, collapse whitespace, trim. -/
def normalizeReply (input : String) : String :=
  let l := jsTrimList input.data
  let l := l.map Char.toUpper
  let l := l.filter (fun c => !isCombiningMark c)
  let l := l.map (fun c => if isReplyKeptChar c then c else ' ')
  let l := collapseWsAux l false
  ⟨jsTrimList l⟩

/-- `POSITIVE_REPLIES`. -/
def POSITIVE_REPLIES : List String := ["JA", "YES", "Y", "OK", "BEVESTIG"]

/-- `NEGATIVE_REPLIES`. -/
def NEGATIVE_REPLIES : List String :=
  ["NEE", "NO", "N", "CANCEL", "ANNULEER", "ANNULEREN"]

/-- `cleaned.split(" ")[0]`. -/
def firstToken (s : String) : String :=
  ⟨s.data.takeWhile (fun c => c ≠ ' ')⟩

/-- `isPositiveReply`. -/
def isPositiveReply (input : String) : Bool :=
  let cleaned := normalizeReply input
  if cleaned = "" then false
  else POSITIVE_REPLIES.contains cleaned
    || POSITIVE_REPLIES.contains (firstToken cleaned)

/-- `isNegativeReply`. -/
def isNegativeReply (input : String) : Bool :=
  let cleaned := normalizeReply input
  if cleaned = "" then false
  else NEGATIVE_REPLIES.contains cleaned
    || NEGATIVE_REPLIES.contains (firstToken cleaned)

/-- Conversation type tag on a Reply Ledger record. -/
inductive ConvType where
  | reservation_confirmation
  | waitlist_offer
deriving DecidableEq, Repr

/-- The webhook `POST` computes `confirmed = isPositiveReply(body)` and
`declined = !confirmed && isNegativeReply(body)`. -/
def webhookFlags (body : String) : Bool × Bool :=
  let confirmed := isPositiveReply body
  let declined := !confirmed && isNegativeReply body
  (confirmed, declined)

/-- The `(confirmed, declined)` pair actually recorded in the Reply Ledger
by the webhook: a closed or expired waitlist offer records
`(false, false)`; otherwise the classification of the body is recorded. -/
def webhookRecordFlags (currentType : Option ConvType)
    (offerClosed offerExpired : Bool) (body : String) : Bool × Bool :=
  if currentType = some .waitlist_offer && (offerClosed || offerExpired) then
    (false, false)
  else
    webhookFlags body

/-! ## Reservation time parsing

`getReservationTimestampInBrussels` splits the `time` string on `":"`,
converts both parts with JS `Number(...)`, validates integer hour 0–23 and
minute 0–59, and resolves against the current Brussels calendar day.
JS `Number` is modelled on: whitespace trimming, the empty string (0),
signed decimal literals with optional fraction and exponent, and the
`0x`/`0o`/`0b` integer prefixes; `Infinity` and any other input are mapped
to `none` alongside `NaN` (neither passes the `Number.isInteger` check). -/

/-- Digit value in a given base (supports 0-9, a-f, A-F), by code point. -/
def digitVal? (base : Nat) (c : Char) : Option Nat :=
  let n := c.toNat
  let v : Option Nat :=
    if 48 ≤ n ∧ n ≤ 57 then some (n - 48)
    else if 97 ≤ n ∧ n ≤ 102 then some (n - 87)
    else if 65 ≤ n ∧ n ≤ 70 then some (n - 55)
    else none
  v.bind (fun d => if d < base then some d else none)

/-- Parse a non-empty digit string in the given base. -/
def parseDigits (base : Nat) (l : List Char) : Option Nat :=
  if l.isEmpty then none
  else l.foldl (fun acc c => do
    let a ← acc
    let d ← digitVal? base c
    pure (a * base + d)) (some 0)

/-- Value of a decimal digit list (caller has checked the digits). -/
def decDigitsVal (l : List Char) : Nat :=
  l.foldl (fun acc c => 10 * acc + (c.toNat - 48)) 0

/-- Decimal digit test. -/
def isDecDigit (c : Char) : Bool := decide (48 ≤ c.toNat ∧ c.toNat ≤ 57)

/-- Parse the mantissa of a decimal literal: returns the digits' combined
value, the number of fractional digits, and the unconsumed remainder. -/
def parseDecimalMantissa (l : List Char) : Option (Nat × Nat × List Char) :=
  let ip := l.takeWhile isDecDigit
  let r1 := l.dropWhile isDecDigit
  match r1 with
  | '.' :: r2 =>
    let fp := r2.takeWhile isDecDigit
    let r3 := r2.dropWhile isDecDigit
    if ip.isEmpty && fp.isEmpty then none
    else some (decDigitsVal (ip ++ fp), fp.length, r3)
  | _ => if ip.isEmpty then none else some (decDigitsVal ip, 0, r1)

/-- Parse a signed decimal JS number literal (with optional fraction and
exponent). `Infinity` is mapped to `none`: it is not an integer, so it
behaves like `NaN` under the `Number.isInteger` guard that follows. -/
def jsParseDecimal (l : List Char) : Option ℚ :=
  let (sign, l1) : ℚ × List Char :=
    match l with
    | '+' :: t => (1, t)
    | '-' :: t => (-1, t)
    | t => (1, t)
  if l1 = "Infinity".data then none
  else
    match parseDecimalMantissa l1 with
    | none => none
    | some (n, fracLen, rest) =>
      match rest with
      | [] => some (sign * n / 10 ^ fracLen)
      | e :: r2 =>
        if e = 'e' || e = 'E' then
          let (esign, r3) : ℤ × List Char :=
            match r2 with
            | '+' :: t => (1, t)
            | '-' :: t => (-1, t)
            | t => (1, t)
          if r3.isEmpty || !(r3.all isDecDigit) then none
          else some (sign * n * (10 : ℚ) ^ (esign * decDigitsVal r3 - fracLen : ℤ))
        else none

/-- JS `Number(string)`; `none` stands for `NaN` (and `Infinity`, see
`jsParseDecimal`). -/
def jsNumberOfString (s : String) : Option ℚ :=
  let l := jsTrimList s.data
  match l with
  | [] => some 0
  | '0' :: 'x' :: rest => (parseDigits 16 rest).map (fun n => (n : ℚ))
  | '0' :: 'X' :: rest => (parseDigits 16 rest).map (fun n => (n : ℚ))
  | '0' :: 'o' :: rest => (parseDigits 8 rest).map (fun n => (n : ℚ))
  | '0' :: 'O' :: rest => (parseDigits 8 rest).map (fun n => (n : ℚ))
  | '0' :: 'b' :: rest => (parseDigits 2 rest).map (fun n => (n : ℚ))
  | '0' :: 'B' :: rest => (parseDigits 2 rest).map (fun n => (n : ℚ))
  | _ => jsParseDecimal l

/-- `Number.isInteger` for an already-finite value. -/
def qIsInteger (q : ℚ) : Bool := q.den == 1

/-- JS `time.split(":")` (single-character separator), written as a
structural recursion on the character list. -/
def splitOnChar (sep : Char) : List Char → List (List Char)
  | [] => [[]]
  | c :: rest =>
    let r := splitOnChar sep rest
    if c = sep then [] :: r
    else
      match r with
      | [] => [[c]]
      | h :: t => (c :: h) :: t

/-- `getReservationTimestampInBrussels(time, referenceTimestamp)`.
`brusselsDayBase` is `Date.UTC(year, month - 1, day, 0, 0, 0)` for the
Brussels calendar date of the reference timestamp (the timezone lookup is
kept abstract). Returns `null` (`none`) unless the split parts are integer
hours 0–23 and minutes 0–59. -/
def getReservationTimestampInBrussels (time : String) (brusselsDayBase : ℚ) :
    Option ℚ :=
  let parts := splitOnChar ':' time.data
  let hours? : Option ℚ := match parts[0]? with
    | some p => jsNumberOfString ⟨p⟩
    | none => none
  let minutes? : Option ℚ := match parts[1]? with
    | some p => jsNumberOfString ⟨p⟩
    | none => none
  match hours?, minutes? with
  | some h, some m =>
    if qIsInteger h = true ∧ qIsInteger m = true ∧
        0 ≤ h ∧ h ≤ 23 ∧ 0 ≤ m ∧ m ≤ 59 then
      some (brusselsDayBase + (h * 60 + m) * 60000)
    else none
  | _, _ => none

/-! ## Stable sort head

Both matching flows run `.sort((a, b) => (a.createdAt ?? 0) - (b.createdAt ?? 0))[0]`
on a filtered list. JS `Array.prototype.sort` is stable, so the head of the
sorted array is the first element attaining the minimal key; `jsSortMinBy`
computes it directly. -/

/-- First element of the list attaining the minimal key — the head of a
stable ascending sort by `key`. -/
def jsSortMinBy {α : Type} (key : α → ℚ) : List α → Option α
  | [] => none
  | a :: rest =>
    some (rest.foldl (fun best x => if key x < key best then x else best) a)

theorem jsSortMinBy_mem {α : Type} (key : α → ℚ) {l : List α} {m : α}
    (h : jsSortMinBy key l = some m) : m ∈ l := by
  match l with
  | [] => simp [jsSortMinBy] at h
  | a :: rest =>
    simp only [jsSortMinBy, Option.some.injEq] at h
    subst h
    induction rest generalizing a with
    | nil => simp [List.foldl]
    | cons x t ih =>
      simp only [List.foldl]
      by_cases hx : key x < key a
      · rw [if_pos hx]
        have := ih x
        simp only [List.mem_cons] at this ⊢
        tauto
      · rw [if_neg hx]
        have := ih a
        simp only [List.mem_cons] at this ⊢
        tauto

theorem jsSortMinBy_min {α : Type} (key : α → ℚ) {l : List α} {m : α}
    (h : jsSortMinBy key l = some m) : ∀ b ∈ l, key m ≤ key b := by
  match l with
  | [] => simp [jsSortMinBy] at h
  | a :: rest =>
    simp only [jsSortMinBy, Option.some.injEq] at h
    subst h
    induction rest generalizing a with
    | nil =>
      intro b hb
      simp only [List.mem_cons, List.not_mem_nil, or_false] at hb
      simp [List.foldl, hb]
    | cons x t ih =>
      intro b hb
      simp only [List.mem_cons] at hb
      simp only [List.foldl]
      by_cases hx : key x < key a
      · rw [if_pos hx]
        have hfold : key (List.foldl
            (fun best y => if key y < key best then y else best) x t) ≤ key x :=
          ih x x (by simp)
        rcases hb with rfl | rfl | hb
        · exact le_trans hfold (le_of_lt hx)
        · exact hfold
        · exact ih x b (by simp [hb])
      · rw [if_neg hx]
        have hfold : key (List.foldl
            (fun best y => if key y < key best then y else best) a t) ≤ key a :=
          ih a a (by simp)
        rcases hb with rfl | rfl | hb
        · exact hfold
        · exact le_trans hfold (le_of_not_lt hx)
        · exact ih a b (by simp [hb])

/-! ## Settings -/

/-- Contact channel (`src/lib/shared/settings.ts`). -/
inductive ContactChannel where
  | whatsapp
  | sms
  | email
deriving DecidableEq, Repr

/-- `ReminderSettings`. -/
structure ReminderSettings where
  firstReminderMinutesBefore : ℚ
  finalReminderMinutesBefore : ℚ
deriving DecidableEq, Repr

/-- `AutomationSettings`. -/
structure AutomationSettings where
  noShowThresholdMinutes : ℚ
  waitlistResponseMinutes : ℚ
  preferredChannel : ContactChannel
deriving DecidableEq, Repr

/-! ## Reminder scheduler + no-show detector

The `REMINDER + NO-SHOW AUTOMATISERING` interval effect. Each tick reads
`Date.now()` (`now`), its Brussels wall-clock projection (`nowBrussels`),
and resolves each reservation's time against the Brussels calendar day
(`brusselsDayBase`); these are the tick's parameters. The tick computes a
map of updates keyed by reservation id, then applies it with
`prev.map(...)`; reminder messages are collected per tick and dispatched
after the state computation. -/

/-- Parameters of one reminder/no-show tick. -/
structure TickConfig where
  reminder : ReminderSettings
  automation : AutomationSettings
  now : ℚ
  nowBrussels : ℚ
  brusselsDayBase : ℚ
deriving DecidableEq, Repr

/-- The update `{status, reminderCount, lastReminderAt}` the tick computes
for one reservation, or `none` when the loop `continue`s (non-`attention`
status, unparseable time, or nothing changed). -/
def reservationUpdate (cfg : TickConfig) (r : Reservation) :
    Option (RStatus × Nat × Option ℚ) :=
  if r.status = .attention then
    match getReservationTimestampInBrussels r.time cfg.brusselsDayBase with
    | none => none
    | some ts =>
      let firstReminderAt := ts - cfg.reminder.firstReminderMinutesBefore * 60000
      let finalReminderAt := ts - cfg.reminder.finalReminderMinutesBefore * 60000
      let noShowAt := ts + cfg.automation.noShowThresholdMinutes * 60000
      let reminderPart : Option (Nat × Option ℚ) :=
        if r.reminderCount < 2 ∧ finalReminderAt ≤ cfg.nowBrussels then
          some (2, some cfg.now)
        else if r.reminderCount < 1 ∧ firstReminderAt ≤ cfg.nowBrussels then
          some (1, some cfg.now)
        else none
      let noShow := noShowAt ≤ cfg.nowBrussels
      match reminderPart with
      | some (cnt, lastAt) =>
        some (if noShow then .expired else r.status, cnt, lastAt)
      | none =>
        if noShow then some (.expired, r.reminderCount, r.lastReminderAt)
        else none
  else none

/-- Applying one tick's update to one reservation. -/
def applyUpdate (r : Reservation) : Option (RStatus × Nat × Option ℚ) →
    Reservation
  | none => r
  | some (st, cnt, lastAt) =>
    { r with status := st, reminderCount := cnt, lastReminderAt := lastAt }

/-- One loop iteration extending the `updates` map. -/
def updStep (cfg : TickConfig)
    (m : List (String × (RStatus × Nat × Option ℚ))) (r : Reservation) :
    List (String × (RStatus × Nat × Option ℚ)) :=
  match reservationUpdate cfg r with
  | none => m
  | some u => mapSet m r.id u

/-- The `updates` map the tick builds over the reservation list. -/
def buildUpdates (cfg : TickConfig) (rs : List Reservation) :
    List (String × (RStatus × Nat × Option ℚ)) :=
  rs.foldl (updStep cfg) []

/-- Reservation list after one reminder/no-show tick
(`setReservations(prev => prev.map ...)`, keyed by `updates.get(r.id)`). -/
def reminderTickReservations (cfg : TickConfig) (rs : List Reservation) :
    List Reservation :=
  let updates := buildUpdates cfg rs
  rs.map (fun r => applyUpdate r (mapLookup updates r.id))

/-- An outbound message: recipient phone and text. -/
structure Outbound where
  phone : String
  text : String
deriving DecidableEq, Repr

/-- The one-shot event keys added and the messages queued for one
reservation during a tick, given the one-shot set at that point of the
loop. Mirrors the `sentReminderEvents` guard and the
`preferredChannel === "whatsapp" && phone.trim()` send condition. -/
def rowEmissions (cfg : TickConfig) (sent : List String) (r : Reservation) :
    List String × List Outbound :=
  if r.status = .attention then
    match getReservationTimestampInBrussels r.time cfg.brusselsDayBase with
    | none => ([], [])
    | some ts =>
      let firstReminderAt := ts - cfg.reminder.firstReminderMinutesBefore * 60000
      let finalReminderAt := ts - cfg.reminder.finalReminderMinutesBefore * 60000
      if r.reminderCount < 2 ∧ finalReminderAt ≤ cfg.nowBrussels then
        let reminderKey := r.id ++ ":2"
        if reminderKey ∈ sent then ([], [])
        else
          ([reminderKey],
            if cfg.automation.preferredChannel = .whatsapp ∧ jsTrim r.phone ≠ ""
            then [⟨r.phone,
              "Laatste herinnering: bevestig je reservatie om " ++ r.time ++
              ". Antwoord met JA om te bevestigen of NEE om te annuleren."⟩]
            else [])
      else if r.reminderCount < 1 ∧ firstReminderAt ≤ cfg.nowBrussels then
        let reminderKey := r.id ++ ":1"
        if reminderKey ∈ sent then ([], [])
        else
          ([reminderKey],
            if cfg.automation.preferredChannel = .whatsapp ∧ jsTrim r.phone ≠ ""
            then [⟨r.phone,
              "Dag " ++ r.name ++ ", bevestig je reservatie om " ++ r.time ++
              " voor " ++ toString r.partySize ++
              " personen. Antwoord met JA om te bevestigen of NEE om te annuleren."⟩]
            else [])
      else ([], [])
  else ([], [])

/-- The one-shot event set and the outbound queue after one tick's loop. -/
def reminderTickEmissions (cfg : TickConfig) (sent : List String)
    (rs : List Reservation) : List String × List Outbound :=
  rs.foldl (fun (acc : List String × List Outbound) r =>
    let (keys, outs) := rowEmissions cfg acc.1 r
    (acc.1 ++ keys, acc.2 ++ outs)) (sent, [])

/-! ## Confirmation reconciler

The 6-second interval effect: polls `getWhatsAppConfirmation` for every
reservation with `status == "attention"`, `reminderCount > 0` and a
non-empty phone, collects accepted confirm/decline ids, then applies them
in one `setReservations` update guarded by `status == "attention"`. -/

/-- A Reply Ledger record as observed through
`/api/whatsapp/confirmation` (`confirmed`, `declined`, `updatedAt`). -/
structure ReplyPayload where
  confirmed : Bool
  declined : Bool
  updatedAt : ℚ
deriving DecidableEq, Repr

/-- `Boolean(payload?.confirmed)`. -/
def replyConfirmed (payload : Option ReplyPayload) : Bool :=
  (payload.map (·.confirmed)).getD false

/-- `Boolean(payload?.declined)`. -/
def replyDeclined (payload : Option ReplyPayload) : Bool :=
  (payload.map (·.declined)).getD false

/-- `Number(payload?.updatedAt ?? 0)`. -/
def replyUpdatedAt (payload : Option ReplyPayload) : ℚ :=
  (payload.map (·.updatedAt)).getD 0

/-- One loop iteration of the confirmation reconciler: query the ledger,
drop stale or unreminded rows, record declined/confirmed ids. -/
def confirmationScanStep (replies : String → Option ReplyPayload)
    (acc : List String × List String) (r : Reservation) :
    List String × List String :=
  let payload := replies r.phone
  let declined := replyDeclined payload
  let confirmed := replyConfirmed payload
  let updatedAt := replyUpdatedAt payload
  let lastReminderAt := r.lastReminderAt.getD 0
  let createdAt := r.createdAt.getD 0
  let minimumAcceptedReplyAt := max lastReminderAt createdAt
  if lastReminderAt = 0 ∨ updatedAt < minimumAcceptedReplyAt then acc
  else
    let acc1 := if declined then (acc.1, setInsert acc.2 r.id) else acc
    if confirmed then (setInsert acc1.1 r.id, acc1.2) else acc1

/-- The `(confirmedIds, declinedIds)` sets one confirmation-reconciler
tick collects, given the Reply Ledger as an oracle keyed by phone. -/
def confirmationIds (replies : String → Option ReplyPayload)
    (rs : List Reservation) : List String × List String :=
  let attentionReservations := rs.filter (fun r =>
    decide (r.status = .attention ∧ 0 < r.reminderCount ∧ jsTrim r.phone ≠ ""))
  attentionReservations.foldl (confirmationScanStep replies) ([], [])

/-- One confirmation-reconciler resolution applied to one reservation
(declined ⇒ `expired`, confirmed ⇒ `confirmed`, guarded by
`status == "attention"`; the decline check comes first, as in the
source). -/
def confirmationResolve (confirmedIds declinedIds : List String)
    (r : Reservation) : Reservation :=
  if r.status ≠ .attention then r
  else if r.id ∈ declinedIds then { r with status := .expired }
  else if r.id ∈ confirmedIds then { r with status := .confirmed }
  else r

/-- Applying one confirmation-reconciler tick's resolution to the
reservation list. -/
def confirmationApply (confirmedIds declinedIds : List String)
    (rs : List Reservation) : List Reservation :=
  rs.map (confirmationResolve confirmedIds declinedIds)

/-- Reservation list after one confirmation-reconciler tick. -/
def confirmationTickReservations (replies : String → Option ReplyPayload)
    (rs : List Reservation) : List Reservation :=
  confirmationApply (confirmationIds replies rs).1
    (confirmationIds replies rs).2 rs

/-! ## Engine state

The provider's entity store (`reservations`, `waitlist`) together with its
in-flight bookkeeping refs (`inFlightReservationIds`, `fillTimeouts`,
`pendingWaitlistMatches`, `pendingFallbackStatuses`,
`sentReminderEvents`). `fillTimeouts` keeps, per reservation id, the
duration in milliseconds the armed response-timeout was created with. -/

structure EngineState where
  reservations : List Reservation
  waitlist : List WaitlistEntry
  inFlightReservationIds : List String
  fillTimeouts : List (String × ℚ)
  pendingWaitlistMatches : List (String × String)
  pendingFallbackStatuses : List (String × RStatus)
  sentReminderEvents : List String
deriving DecidableEq, Repr

/-- The empty initial state. -/
def initState : EngineState :=
  { reservations := [], waitlist := [], inFlightReservationIds := [],
    fillTimeouts := [], pendingWaitlistMatches := [],
    pendingFallbackStatuses := [], sentReminderEvents := [] }

/-! ## Waitlist matcher (automatic) -/

/-- The matching engine's selection:
`waitlist.filter(p => p.partySize === size && (p.status ?? "waiting") === "waiting")
  .sort((a, b) => (a.createdAt ?? 0) - (b.createdAt ?? 0))[0]`. -/
def selectWaitlistMatch (waitlist : List WaitlistEntry) (size : Nat) :
    Option WaitlistEntry :=
  jsSortMinBy WaitlistEntry.createdAtD
    (waitlist.filter (fun p => decide (p.partySize = size ∧ p.statusD = .waiting)))

/-- One evaluation of the `MATCHING ENGINE` effect: process the first
reservation with `status == "expired"` not in the in-flight guard; either
mark it `unfilled` (no match) or run the offer protocol on the FIFO
match. -/
def matcherTick (as : AutomationSettings) (now : ℚ) (s : EngineState) :
    EngineState :=
  match s.reservations.find? (fun r =>
      decide (r.status = .expired ∧ r.id ∉ s.inFlightReservationIds)) with
  | none => s
  | some r0 =>
    match selectWaitlistMatch s.waitlist r0.partySize with
    | none =>
      { s with reservations := s.reservations.map (fun r =>
          if r.id = r0.id then { r with status := .unfilled } else r) }
    | some m =>
      let responseTimeoutMs := max as.waitlistResponseMinutes 1 * 60000
      { s with
        reservations := s.reservations.map (fun r =>
          if r.id = r0.id then { r with status := .processing } else r),
        waitlist := s.waitlist.map (fun p =>
          if p.id = m.id then
            { p with status := some .contacted, lastContactedAt := some now }
          else p),
        inFlightReservationIds := setInsert s.inFlightReservationIds r0.id,
        pendingWaitlistMatches := mapSet s.pendingWaitlistMatches r0.id m.id,
        pendingFallbackStatuses :=
          mapSet s.pendingFallbackStatuses r0.id .expired,
        fillTimeouts := mapSet s.fillTimeouts r0.id responseTimeoutMs }

/-- The matcher's armed response-timeout firing: if the reservation is
still `processing`, revert it to `"expired"`; mark the entry declined;
clear all bookkeeping for the reservation. -/
def matcherTimeoutFire (resId wlId : String) (s : EngineState) :
    EngineState :=
  { s with
    reservations := s.reservations.map (fun r =>
      if r.id = resId ∧ r.status = .processing then { r with status := .expired }
      else r),
    waitlist := s.waitlist.map (fun w =>
      if w.id = wlId then { w with status := some .declined } else w),
    inFlightReservationIds := setDelete s.inFlightReservationIds resId,
    pendingWaitlistMatches := mapDelete s.pendingWaitlistMatches resId,
    pendingFallbackStatuses := mapDelete s.pendingFallbackStatuses resId,
    fillTimeouts := mapDelete s.fillTimeouts resId }

/-- The matcher's `sendWhatsAppMessage(...).catch` rollback: cancel the
timeout, revert a still-`processing` reservation to `"expired"`, return
the entry to `"waiting"`, clear bookkeeping. -/
def matcherSendFailureRollback (resId wlId : String) (s : EngineState) :
    EngineState :=
  { s with
    fillTimeouts := mapDelete s.fillTimeouts resId,
    reservations := s.reservations.map (fun r =>
      if r.id = resId ∧ r.status = .processing then { r with status := .expired }
      else r),
    waitlist := s.waitlist.map (fun w =>
      if w.id = wlId then { w with status := some .waiting } else w),
    inFlightReservationIds := setDelete s.inFlightReservationIds resId,
    pendingWaitlistMatches := mapDelete s.pendingWaitlistMatches resId,
    pendingFallbackStatuses := mapDelete s.pendingFallbackStatuses resId }

/-! ## Manual contact flow (`markWaitlistContacted`) -/

/-- Candidate table for a manual contact: reservations with status
`expired` or `unfilled`, equal party size, not in flight, earliest
`createdAt ?? 0` first (stable sort head). -/
def selectCandidateReservation (reservations : List Reservation)
    (inFlight : List String) (size : Nat) : Option Reservation :=
  jsSortMinBy Reservation.createdAtD
    (reservations.filter (fun r =>
      decide ((r.status = .expired ∨ r.status = .unfilled) ∧
        r.partySize = size ∧ r.id ∉ inFlight)))

/-- `markWaitlistContacted(id)`: the synchronous part of the staff-invoked
flow (lookup, candidate selection, in-flight marking, offer protocol). -/
def markWaitlistContacted (as : AutomationSettings) (now : ℚ) (wlId : String)
    (s : EngineState) : EngineState :=
  match s.waitlist.find? (fun e => e.id == wlId) with
  | none => s
  | some entry =>
    match selectCandidateReservation s.reservations s.inFlightReservationIds
        entry.partySize with
    | none => s
    | some cand =>
      let responseTimeoutMs := max as.waitlistResponseMinutes 1 * 60000
      { s with
        inFlightReservationIds := setInsert s.inFlightReservationIds cand.id,
        pendingWaitlistMatches := mapSet s.pendingWaitlistMatches cand.id wlId,
        pendingFallbackStatuses :=
          mapSet s.pendingFallbackStatuses cand.id cand.status,
        reservations := s.reservations.map (fun r =>
          if r.id = cand.id then { r with status := .processing } else r),
        fillTimeouts := mapSet s.fillTimeouts cand.id responseTimeoutMs,
        waitlist := s.waitlist.map (fun e =>
          if e.id = wlId then
            { e with status := some .contacted, lastContactedAt := some now }
          else e) }

/-- The manual flow's response-timeout firing: revert a still-`processing`
reservation to the recorded fallback status (`?? "expired"`), mark the
entry declined, clear bookkeeping. -/
def manualTimeoutFire (resId wlId : String) (s : EngineState) : EngineState :=
  let fallbackStatus := (mapLookup s.pendingFallbackStatuses resId).getD .expired
  { s with
    reservations := s.reservations.map (fun r =>
      if r.id = resId ∧ r.status = .processing then
        { r with status := fallbackStatus }
      else r),
    waitlist := s.waitlist.map (fun w =>
      if w.id = wlId then { w with status := some .declined } else w),
    inFlightReservationIds := setDelete s.inFlightReservationIds resId,
    pendingWaitlistMatches := mapDelete s.pendingWaitlistMatches resId,
    pendingFallbackStatuses := mapDelete s.pendingFallbackStatuses resId,
    fillTimeouts := mapDelete s.fillTimeouts resId }

/-- The manual flow's send-failure rollback: cancel the timeout, revert a
still-`processing` reservation to the candidate's captured pre-match
status, return the entry to `"waiting"`, clear bookkeeping. -/
def manualSendFailureRollback (resId wlId : String) (prevStatus : RStatus)
    (s : EngineState) : EngineState :=
  { s with
    fillTimeouts := mapDelete s.fillTimeouts resId,
    reservations := s.reservations.map (fun r =>
      if r.id = resId ∧ r.status = .processing then { r with status := prevStatus }
      else r),
    waitlist := s.waitlist.map (fun w =>
      if w.id = wlId then { w with status := some .waiting } else w),
    inFlightReservationIds := setDelete s.inFlightReservationIds resId,
    pendingWaitlistMatches := mapDelete s.pendingWaitlistMatches resId,
    pendingFallbackStatuses := mapDelete s.pendingFallbackStatuses resId }

/-! ## Offer reconciler

The 4-second interval effect: for each entry of
`pendingWaitlistMatches`, re-check the reservation is still `processing`
and the entry exists, query the Reply Ledger for the waitlist guest's
phone, drop stale or ambiguous replies, then resolve to filled (confirm)
or fallback/declined (decline), cancelling the armed timeout.
`offerReconcilerStep` is the processing of one such entry. -/

def offerReconcilerStep (s : EngineState) (resId wlId : String)
    (payload : Option ReplyPayload) : EngineState :=
  match s.reservations.find? (fun r => r.id == resId) with
  | none => s
  | some r =>
    if r.status ≠ .processing then s
    else
      match s.waitlist.find? (fun w => w.id == wlId) with
      | none => s
      | some w =>
        let confirmed := replyConfirmed payload
        let declined := replyDeclined payload
        let updatedAt := replyUpdatedAt payload
        let contactedAt := w.lastContactedAt.getD 0
        if contactedAt = 0 ∨ updatedAt < contactedAt then s
        else if !confirmed && !declined then s
        else
          let s1 := { s with fillTimeouts := mapDelete s.fillTimeouts resId }
          if confirmed then
            { s1 with
              reservations := s1.reservations.map (fun q =>
                if q.id = resId ∧ q.status = .processing then
                  { q with
                    status := .filled,
                    originalGuestName := some (q.originalGuestName.getD q.name),
                    name := w.name,
                    phone := w.phone,
                    filledFromWaitlist := true }
                else q),
              waitlist := s1.waitlist.filter (fun w' => w'.id ≠ wlId),
              inFlightReservationIds :=
                setDelete s1.inFlightReservationIds resId,
              pendingWaitlistMatches :=
                mapDelete s1.pendingWaitlistMatches resId,
              pendingFallbackStatuses :=
                mapDelete s1.pendingFallbackStatuses resId }
          else
            let fallbackStatus :=
              (mapLookup s.pendingFallbackStatuses resId).getD .expired
            { s1 with
              reservations := s1.reservations.map (fun q =>
                if q.id = resId ∧ q.status = .processing then
                  { q with status := fallbackStatus }
                else q),
              waitlist := s1.waitlist.map (fun w' =>
                if w'.id = wlId then { w' with status := some .declined }
                else w'),
              inFlightReservationIds :=
                setDelete s1.inFlightReservationIds resId,
              pendingWaitlistMatches :=
                mapDelete s1.pendingWaitlistMatches resId,
              pendingFallbackStatuses :=
                mapDelete s1.pendingFallbackStatuses resId }

/-! ## CRUD operations and automation-state clearing -/

structure NewReservationEntry where
  name : String
  phone : String
  partySize : Nat
  time : String
deriving DecidableEq, Repr

structure NewWaitlistEntry where
  name : String
  phone : String
  partySize : Nat
deriving DecidableEq, Repr

/-- `addReservation` (the fresh `crypto.randomUUID()` is a parameter). -/
def addReservationStep (entry : NewReservationEntry) (id : String) (now : ℚ)
    (s : EngineState) : EngineState :=
  { s with reservations := s.reservations ++
      [{ id := id, name := entry.name, phone := entry.phone,
         time := entry.time, createdAt := some now,
         partySize := entry.partySize, status := .attention,
         filledFromWaitlist := false, originalGuestName := none,
         estimatedRevenue := entry.partySize * 60, reminderCount := 0,
         lastReminderAt := none }] }

/-- `clearReservationAutomationState` for a single id. -/
def clearAutomationForId (id : String) (s : EngineState) : EngineState :=
  { s with
    fillTimeouts := mapDelete s.fillTimeouts id,
    inFlightReservationIds := setDelete s.inFlightReservationIds id,
    pendingWaitlistMatches := mapDelete s.pendingWaitlistMatches id,
    pendingFallbackStatuses := mapDelete s.pendingFallbackStatuses id,
    sentReminderEvents :=
      setDelete (setDelete s.sentReminderEvents (id ++ ":1")) (id ++ ":2") }

/-- `clearReservationAutomationState(ids)`. -/
def clearReservationAutomationState (ids : List String) (s : EngineState) :
    EngineState :=
  ids.foldl (fun st id => clearAutomationForId id st) s

/-- `removeReservation`. -/
def removeReservationStep (id : String) (s : EngineState) : EngineState :=
  let s1 := clearReservationAutomationState [id] s
  { s1 with reservations := s1.reservations.filter (fun r => r.id ≠ id) }

/-- `clearReservations`. -/
def clearReservationsStep (s : EngineState) : EngineState :=
  let s1 := clearReservationAutomationState (s.reservations.map (·.id)) s
  { s1 with reservations := [] }

/-- `addWaitlistEntry`. -/
def addWaitlistStep (entry : NewWaitlistEntry) (id : String) (now : ℚ)
    (s : EngineState) : EngineState :=
  { s with waitlist := s.waitlist ++
      [{ id := id, name := entry.name, phone := entry.phone,
         partySize := entry.partySize, status := some .waiting,
         createdAt := some now, lastContactedAt := none }] }

/-- `removeWaitlistEntry`. -/
def removeWaitlistStep (id : String) (s : EngineState) : EngineState :=
  { s with waitlist := s.waitlist.filter (fun w => w.id ≠ id) }

/-- One reminder/no-show tick on the engine state. -/
def reminderTickStep (cfg : TickConfig) (s : EngineState) : EngineState :=
  { s with
    reservations := reminderTickReservations cfg s.reservations,
    sentReminderEvents :=
      (reminderTickEmissions cfg s.sentReminderEvents s.reservations).1 }

/-- One confirmation-reconciler tick on the engine state. -/
def confirmationTickStep (replies : String → Option ReplyPayload)
    (s : EngineState) : EngineState :=
  { s with reservations := confirmationTickReservations replies s.reservations }

/-! ## The transition system

Every operation the engine performs on its state. Preconditions record
what the runtime guarantees: `addRes` ids are fresh (`crypto.randomUUID`),
the offer reconciler only processes entries of `pendingWaitlistMatches`,
the manual rollback's captured pre-match status came from the candidate
filter (`expired` or `unfilled`). Timeout firings and rollbacks are
modelled liberally (they may fire at any time), which only enlarges the
set of behaviours an invariant must cover. -/

inductive Step : EngineState → EngineState → Prop where
  | reminder (cfg : TickConfig) (s : EngineState) :
      Step s (reminderTickStep cfg s)
  | confirmation (replies : String → Option ReplyPayload) (s : EngineState) :
      Step s (confirmationTickStep replies s)
  | matcher (as : AutomationSettings) (now : ℚ) (s : EngineState) :
      Step s (matcherTick as now s)
  | manual (as : AutomationSettings) (now : ℚ) (wlId : String)
      (s : EngineState) : Step s (markWaitlistContacted as now wlId s)
  | matcherTimeout (resId wlId : String) (s : EngineState) :
      Step s (matcherTimeoutFire resId wlId s)
  | manualTimeout (resId wlId : String) (s : EngineState) :
      Step s (manualTimeoutFire resId wlId s)
  | offer (resId wlId : String) (payload : Option ReplyPayload)
      (s : EngineState)
      (h : mapLookup s.pendingWaitlistMatches resId = some wlId) :
      Step s (offerReconcilerStep s resId wlId payload)
  | matcherRollback (resId wlId : String) (s : EngineState) :
      Step s (matcherSendFailureRollback resId wlId s)
  | manualRollback (resId wlId : String) (prevStatus : RStatus)
      (s : EngineState) (h : prevStatus = .expired ∨ prevStatus = .unfilled) :
      Step s (manualSendFailureRollback resId wlId prevStatus s)
  | addRes (entry : NewReservationEntry) (id : String) (now : ℚ)
      (s : EngineState) (h : ∀ r ∈ s.reservations, r.id ≠ id) :
      Step s (addReservationStep entry id now s)
  | removeRes (id : String) (s : EngineState) :
      Step s (removeReservationStep id s)
  | clearRes (s : EngineState) : Step s (clearReservationsStep s)
  | addWl (entry : NewWaitlistEntry) (id : String) (now : ℚ)
      (s : EngineState) : Step s (addWaitlistStep entry id now s)
  | removeWl (id : String) (s : EngineState) :
      Step s (removeWaitlistStep id s)

/-- States reachable from the empty initial state by engine operations. -/
inductive Reachable : EngineState → Prop where
  | init : Reachable initState
  | step {s s' : EngineState} : Reachable s → Step s s' → Reachable s'

/-- The in-flight guard invariant (with the auxiliary facts its
preservation needs): reservation ids are unique, a reservation's id is in
the guard set iff its status is `processing`, every guarded id belongs to
an existing reservation, and every recorded fallback status differs from
`processing`. -/
def InFlightInv (s : EngineState) : Prop :=
  (s.reservations.map Reservation.id).Nodup ∧
  (∀ r ∈ s.reservations,
    (r.id ∈ s.inFlightReservationIds ↔ r.status = .processing)) ∧
  (∀ id ∈ s.inFlightReservationIds, ∃ r ∈ s.reservations, r.id = id) ∧
  (∀ p ∈ s.pendingFallbackStatuses, p.2 ≠ .processing)

/-! Generic helpers for pushing the invariant through the list updates. -/

theorem ids_map_pres {rs : List Reservation} {f : Reservation → Reservation}
    (hf : ∀ r, (f r).id = r.id) :
    (rs.map f).map Reservation.id = rs.map Reservation.id := by
  rw [List.map_map]
  exact List.map_congr_left (fun r _ => hf r)

theorem exists_map_id {rs : List Reservation} {f : Reservation → Reservation}
    (hf : ∀ r, (f r).id = r.id) {id : String}
    (h : ∃ r ∈ rs, r.id = id) : ∃ r' ∈ rs.map f, r'.id = id := by
  obtain ⟨r, hr, hid⟩ := h
  exact ⟨f r, List.mem_map_of_mem f hr, by rw [hf r, hid]⟩

/-- Pointwise invariant preservation for every update of the shape
`prev.map(r => r.id === resId && r.status === "processing" ? g(r) : r)`
combined with `inFlightReservationIds.delete(resId)`, where `g` keeps the
id and writes a status different from `processing`. -/
theorem pointwise_guardedUpdate {rs : List Reservation}
    {inFlight : List String}
    (hpt : ∀ r ∈ rs, (r.id ∈ inFlight ↔ r.status = .processing))
    (resId : String) {g : Reservation → Reservation}
    (hgid : ∀ r, (g r).id = r.id) {ν : RStatus}
    (hgst : ∀ r, (g r).status = ν) (hν : ν ≠ .processing) :
    ∀ r' ∈ rs.map (fun r =>
        if r.id = resId ∧ r.status = .processing then g r else r),
      (r'.id ∈ setDelete inFlight resId ↔ r'.status = .processing) := by
  intro r' hr'
  obtain ⟨r, hr, rfl⟩ := List.mem_map.1 hr'
  split
  · rename_i hcond
    simp only [mem_setDelete, hgid r, hgst r]
    constructor
    · rintro ⟨-, hne⟩
      exact absurd hcond.1 hne
    · intro hst
      exact absurd hst hν
  · rename_i hcond
    simp only [mem_setDelete]
    rw [not_and_or] at hcond
    rcases hcond with hid | hst
    · constructor
      · rintro ⟨hin, -⟩
        exact (hpt r hr).1 hin
      · intro h
        exact ⟨(hpt r hr).2 h, hid⟩
    · constructor
      · rintro ⟨hin, -⟩
        exact (hpt r hr).1 hin
      · intro h
        exact absurd h hst

/-- Pointwise invariant preservation for the match step:
`prev.map(r => r.id === r0 ? {...r, status: "processing"} : r)` together
with `inFlightReservationIds.add(r0)`. -/
theorem pointwise_setProcessing {rs : List Reservation}
    {inFlight : List String}
    (hpt : ∀ r ∈ rs, (r.id ∈ inFlight ↔ r.status = .processing))
    (r0 : String) :
    ∀ r' ∈ rs.map (fun r =>
        if r.id = r0 then { r with status := RStatus.processing } else r),
      (r'.id ∈ setInsert inFlight r0 ↔ r'.status = .processing) := by
  intro r' hr'
  obtain ⟨r, hr, rfl⟩ := List.mem_map.1 hr'
  by_cases hid : r.id = r0
  · rw [if_pos hid]
    simp [mem_setInsert, hid]
  · rw [if_neg hid]
    rw [mem_setInsert]
    constructor
    · rintro (h | h)
      · exact absurd h hid
      · exact (hpt r hr).1 h
    · intro h
      exact Or.inr ((hpt r hr).2 h)

/-- Pointwise invariant preservation for the no-match step:
`prev.map(r => r.id === r0 ? {...r, status: "unfilled"} : r)` for an `r0`
that is not in flight. -/
theorem pointwise_setUnfilled {rs : List Reservation}
    {inFlight : List String}
    (hpt : ∀ r ∈ rs, (r.id ∈ inFlight ↔ r.status = .processing))
    {r0 : String} (hout : r0 ∉ inFlight) :
    ∀ r' ∈ rs.map (fun r =>
        if r.id = r0 then { r with status := RStatus.unfilled } else r),
      (r'.id ∈ inFlight ↔ r'.status = .processing) := by
  intro r' hr'
  obtain ⟨r, hr, rfl⟩ := List.mem_map.1 hr'
  by_cases hid : r.id = r0
  · rw [if_pos hid]
    constructor
    · intro h
      exact absurd (hid ▸ h) hout
    · intro h
      exact absurd h (by intro hh; exact RStatus.noConfusion hh)
  · rw [if_neg hid]
    exact hpt r hr

/-- A looked-up fallback status (`?? "expired"`) is never `processing`
when every recorded fallback status is not `processing`. -/
theorem fallback_lookup_ne_processing {s : EngineState}
    (hfb : ∀ p ∈ s.pendingFallbackStatuses, p.2 ≠ .processing)
    (resId : String) :
    (mapLookup s.pendingFallbackStatuses resId).getD .expired ≠ .processing := by
  cases hl : mapLookup s.pendingFallbackStatuses resId with
  | none =>
    intro hh
    exact RStatus.noConfusion hh
  | some v =>
    simpa using hfb (resId, v) (mapLookup_mem hl)

/-! Invariant preservation for every engine operation. -/

theorem inv_matcherTimeoutFire (resId wlId : String) {s : EngineState}
    (h : InFlightInv s) : InFlightInv (matcherTimeoutFire resId wlId s) := by
  obtain ⟨hnd, hpt, hw, hfb⟩ := h
  refine ⟨?_, ?_, ?_, ?_⟩
  · show ((s.reservations.map _).map Reservation.id).Nodup
    rw [ids_map_pres (fun r => by split <;> rfl)]
    exact hnd
  · exact pointwise_guardedUpdate hpt resId (fun r => rfl) (fun r => rfl)
      (fun hh => RStatus.noConfusion hh)
  · intro id hid
    have hid' : id ∈ setDelete s.inFlightReservationIds resId := hid
    rw [mem_setDelete] at hid'
    exact exists_map_id (fun r => by split <;> rfl) (hw id hid'.1)
  · intro p hp
    exact hfb p (mem_mapDelete hp)

theorem inv_manualTimeoutFire (resId wlId : String) {s : EngineState}
    (h : InFlightInv s) : InFlightInv (manualTimeoutFire resId wlId s) := by
  obtain ⟨hnd, hpt, hw, hfb⟩ := h
  refine ⟨?_, ?_, ?_, ?_⟩
  · show ((s.reservations.map _).map Reservation.id).Nodup
    rw [ids_map_pres (fun r => by split <;> rfl)]
    exact hnd
  · exact pointwise_guardedUpdate hpt resId (fun r => rfl) (fun r => rfl)
      (fallback_lookup_ne_processing hfb resId)
  · intro id hid
    have hid' : id ∈ setDelete s.inFlightReservationIds resId := hid
    rw [mem_setDelete] at hid'
    exact exists_map_id (fun r => by split <;> rfl) (hw id hid'.1)
  · intro p hp
    exact hfb p (mem_mapDelete hp)

theorem inv_matcherSendFailureRollback (resId wlId : String) {s : EngineState}
    (h : InFlightInv s) :
    InFlightInv (matcherSendFailureRollback resId wlId s) := by
  obtain ⟨hnd, hpt, hw, hfb⟩ := h
  refine ⟨?_, ?_, ?_, ?_⟩
  · show ((s.reservations.map _).map Reservation.id).Nodup
    rw [ids_map_pres (fun r => by split <;> rfl)]
    exact hnd
  · exact pointwise_guardedUpdate hpt resId (fun r => rfl) (fun r => rfl)
      (fun hh => RStatus.noConfusion hh)
  · intro id hid
    have hid' : id ∈ setDelete s.inFlightReservationIds resId := hid
    rw [mem_setDelete] at hid'
    exact exists_map_id (fun r => by split <;> rfl) (hw id hid'.1)
  · intro p hp
    exact hfb p (mem_mapDelete hp)

theorem inv_manualSendFailureRollback (resId wlId : String)
    {prevStatus : RStatus}
    (hprev : prevStatus = .expired ∨ prevStatus = .unfilled)
    {s : EngineState} (h : InFlightInv s) :
    InFlightInv (manualSendFailureRollback resId wlId prevStatus s) := by
  obtain ⟨hnd, hpt, hw, hfb⟩ := h
  have hne : prevStatus ≠ .processing := by
    rcases hprev with rfl | rfl <;> exact fun hh => RStatus.noConfusion hh
  refine ⟨?_, ?_, ?_, ?_⟩
  · show ((s.reservations.map _).map Reservation.id).Nodup
    rw [ids_map_pres (fun r => by split <;> rfl)]
    exact hnd
  · exact pointwise_guardedUpdate hpt resId (fun r => rfl) (fun r => rfl) hne
  · intro id hid
    have hid' : id ∈ setDelete s.inFlightReservationIds resId := hid
    rw [mem_setDelete] at hid'
    exact exists_map_id (fun r => by split <;> rfl) (hw id hid'.1)
  · intro p hp
    exact hfb p (mem_mapDelete hp)

theorem inv_offerReconcilerStep (resId wlId : String)
    (payload : Option ReplyPayload) {s : EngineState} (h : InFlightInv s) :
    InFlightInv (offerReconcilerStep s resId wlId payload) := by
  obtain ⟨hnd, hpt, hw, hfb⟩ := h
  unfold offerReconcilerStep
  split
  · exact ⟨hnd, hpt, hw, hfb⟩
  · split
    · exact ⟨hnd, hpt, hw, hfb⟩
    · split
      · exact ⟨hnd, hpt, hw, hfb⟩
      · dsimp only
        split
        · exact ⟨hnd, hpt, hw, hfb⟩
        · split
          · exact ⟨hnd, hpt, hw, hfb⟩
          · split
            · refine ⟨?_, ?_, ?_, ?_⟩
              · show ((s.reservations.map _).map Reservation.id).Nodup
                rw [ids_map_pres (fun r => by split <;> rfl)]
                exact hnd
              · exact pointwise_guardedUpdate hpt resId (fun r => rfl)
                  (fun r => rfl) (fun hh => RStatus.noConfusion hh)
              · intro id hid
                have hid' : id ∈ setDelete s.inFlightReservationIds resId := hid
                rw [mem_setDelete] at hid'
                exact exists_map_id (fun r => by split <;> rfl) (hw id hid'.1)
              · intro p hp
                exact hfb p (mem_mapDelete hp)
            · refine ⟨?_, ?_, ?_, ?_⟩
              · show ((s.reservations.map _).map Reservation.id).Nodup
                rw [ids_map_pres (fun r => by split <;> rfl)]
                exact hnd
              · exact pointwise_guardedUpdate hpt resId (fun r => rfl)
                  (fun r => rfl) (fallback_lookup_ne_processing hfb resId)
              · intro id hid
                have hid' : id ∈ setDelete s.inFlightReservationIds resId := hid
                rw [mem_setDelete] at hid'
                exact exists_map_id (fun r => by split <;> rfl) (hw id hid'.1)
              · intro p hp
                exact hfb p (mem_mapDelete hp)

theorem inv_matcherTick (as : AutomationSettings) (now : ℚ) {s : EngineState}
    (h : InFlightInv s) : InFlightInv (matcherTick as now s) := by
  obtain ⟨hnd, hpt, hw, hfb⟩ := h
  unfold matcherTick
  split
  · exact ⟨hnd, hpt, hw, hfb⟩
  · rename_i r0 hfind
    have hr0 : r0.status = .expired ∧ r0.id ∉ s.inFlightReservationIds := by
      have := List.find?_some hfind
      simpa using this
    split
    · refine ⟨?_, ?_, ?_, ?_⟩
      · show ((s.reservations.map _).map Reservation.id).Nodup
        rw [ids_map_pres (fun r => by split <;> rfl)]
        exact hnd
      · exact pointwise_setUnfilled hpt hr0.2
      · intro id hid
        exact exists_map_id (fun r => by split <;> rfl) (hw id hid)
      · exact hfb
    · refine ⟨?_, ?_, ?_, ?_⟩
      · show ((s.reservations.map _).map Reservation.id).Nodup
        rw [ids_map_pres (fun r => by split <;> rfl)]
        exact hnd
      · exact pointwise_setProcessing hpt r0.id
      · intro id hid
        have hid' : id ∈ setInsert s.inFlightReservationIds r0.id := hid
        rw [mem_setInsert] at hid'
        rcases hid' with rfl | hid'
        · exact exists_map_id (fun r => by split <;> rfl)
            ⟨r0, List.mem_of_find?_eq_some hfind, rfl⟩
        · exact exists_map_id (fun r => by split <;> rfl) (hw id hid')
      · intro p hp
        rcases mem_mapSet hp with rfl | hp2
        · exact fun hh => RStatus.noConfusion hh
        · exact hfb p hp2

theorem inv_markWaitlistContacted (as : AutomationSettings) (now : ℚ)
    (wlId : String) {s : EngineState} (h : InFlightInv s) :
    InFlightInv (markWaitlistContacted as now wlId s) := by
  obtain ⟨hnd, hpt, hw, hfb⟩ := h
  unfold markWaitlistContacted
  split
  · exact ⟨hnd, hpt, hw, hfb⟩
  · rename_i entry hfind
    split
    · exact ⟨hnd, hpt, hw, hfb⟩
    · rename_i cand hsel
      unfold selectCandidateReservation at hsel
      have hcand := jsSortMinBy_mem _ hsel
      rw [List.mem_filter] at hcand
      have hcprops : (cand.status = .expired ∨ cand.status = .unfilled) ∧
          cand.partySize = entry.partySize ∧
          cand.id ∉ s.inFlightReservationIds :=
        of_decide_eq_true hcand.2
      refine ⟨?_, ?_, ?_, ?_⟩
      · show ((s.reservations.map _).map Reservation.id).Nodup
        rw [ids_map_pres (fun r => by split <;> rfl)]
        exact hnd
      · exact pointwise_setProcessing hpt cand.id
      · intro id hid
        have hid' : id ∈ setInsert s.inFlightReservationIds cand.id := hid
        rw [mem_setInsert] at hid'
        rcases hid' with rfl | hid'
        · exact exists_map_id (fun r => by split <;> rfl)
            ⟨cand, hcand.1, rfl⟩
        · exact exists_map_id (fun r => by split <;> rfl) (hw id hid')
      · intro p hp
        rcases mem_mapSet hp with rfl | hp2
        · rcases hcprops.1 with hc | hc <;>
            · show cand.status ≠ .processing
              rw [hc]
              exact fun hh => RStatus.noConfusion hh
        · exact hfb p hp2

/-! Lemmas about the reminder tick's update map. -/

theorem applyUpdate_id (r : Reservation)
    (u : Option (RStatus × Nat × Option ℚ)) : (applyUpdate r u).id = r.id := by
  cases u with
  | none => rfl
  | some v =>
    obtain ⟨st, cnt, la⟩ := v
    rfl

/-- A computed update always comes from an `attention` reservation and
writes `expired` or `attention` (never `processing`). -/
theorem reservationUpdate_status {cfg : TickConfig} {r : Reservation}
    {u : RStatus × Nat × Option ℚ} (h : reservationUpdate cfg r = some u) :
    r.status = .attention ∧ (u.1 = .expired ∨ u.1 = .attention) := by
  unfold reservationUpdate at h
  split at h
  · rename_i hatt
    refine ⟨hatt, ?_⟩
    split at h
    · exact absurd h (by simp)
    · dsimp only at h
      split at h
      · rename_i cnt la heq
        split at h <;> rename_i hns
        all_goals
          simp only [Option.some.injEq] at h
          rw [← h]
        · left; rfl
        · right; exact hatt
      · split at h
        · simp only [Option.some.injEq] at h
          rw [← h]
          left
          rfl
        · exact absurd h (by simp)
  · exact absurd h (by simp)

theorem mapLookup_updStep_ne (cfg : TickConfig)
    {m : List (String × (RStatus × Nat × Option ℚ))} {k : String}
    {r : Reservation} (hne : r.id ≠ k) :
    mapLookup (updStep cfg m r) k = mapLookup m k := by
  unfold updStep
  split
  · rfl
  · exact mapLookup_mapSet_ne m _ (fun hh => hne hh.symm)

theorem mapLookup_foldl_updStep_not_mem (cfg : TickConfig)
    {l : List Reservation} {k : String} (hk : ∀ r ∈ l, r.id ≠ k)
    (m : List (String × (RStatus × Nat × Option ℚ))) :
    mapLookup (l.foldl (updStep cfg) m) k = mapLookup m k := by
  induction l generalizing m with
  | nil => rfl
  | cons a t ih =>
    rw [List.foldl_cons,
      ih (fun r hr => hk r (List.mem_cons_of_mem a hr))]
    exact mapLookup_updStep_ne cfg (hk a (List.mem_cons_self a t))

theorem mapLookup_foldl_updStep (cfg : TickConfig) {l : List Reservation}
    {r : Reservation} (hr : r ∈ l) (hnd : (l.map Reservation.id).Nodup)
    {m : List (String × (RStatus × Nat × Option ℚ))}
    (hm : mapLookup m r.id = none) :
    mapLookup (l.foldl (updStep cfg) m) r.id = reservationUpdate cfg r := by
  induction l generalizing m with
  | nil => cases hr
  | cons a t ih =>
    rw [List.map_cons, List.nodup_cons] at hnd
    rw [List.foldl_cons]
    rcases List.mem_cons.1 hr with rfl | hrt
    · have hta : ∀ q ∈ t, q.id ≠ r.id := by
        intro q hq hh
        exact hnd.1 (hh ▸ List.mem_map_of_mem Reservation.id hq)
      rw [mapLookup_foldl_updStep_not_mem cfg hta]
      unfold updStep
      cases hu : reservationUpdate cfg r with
      | none => exact hm
      | some u => exact mapLookup_mapSet_self m r.id u
    · have hne : a.id ≠ r.id := by
        intro hh
        exact hnd.1 (hh ▸ List.mem_map_of_mem Reservation.id hrt)
      apply ih hrt hnd.2
      rw [mapLookup_updStep_ne cfg hne]
      exact hm

/-- With unique ids, the update looked up for a reservation is exactly the
update computed from that reservation. -/
theorem mapLookup_buildUpdates (cfg : TickConfig) {rs : List Reservation}
    (hnd : (rs.map Reservation.id).Nodup) {r : Reservation} (hr : r ∈ rs) :
    mapLookup (buildUpdates cfg rs) r.id = reservationUpdate cfg r :=
  mapLookup_foldl_updStep cfg hr hnd rfl

/-- With unique ids, the tick is the per-reservation update applied
elementwise. -/
theorem reminderTickReservations_eq_map (cfg : TickConfig)
    {rs : List Reservation} (hnd : (rs.map Reservation.id).Nodup) :
    reminderTickReservations cfg rs =
      rs.map (fun r => applyUpdate r (reservationUpdate cfg r)) := by
  unfold reminderTickReservations
  apply List.map_congr_left
  intro r hr
  rw [mapLookup_buildUpdates cfg hnd hr]

theorem inv_reminderTickStep (cfg : TickConfig) {s : EngineState}
    (h : InFlightInv s) : InFlightInv (reminderTickStep cfg s) := by
  obtain ⟨hnd, hpt, hw, hfb⟩ := h
  refine ⟨?_, ?_, ?_, ?_⟩
  · show ((s.reservations.map _).map Reservation.id).Nodup
    rw [ids_map_pres (fun r => applyUpdate_id r _)]
    exact hnd
  · intro r' hr'
    have hr'' : r' ∈ s.reservations.map (fun r =>
        applyUpdate r (mapLookup (buildUpdates cfg s.reservations) r.id)) := hr'
    obtain ⟨r, hr, rfl⟩ := List.mem_map.1 hr''
    rw [mapLookup_buildUpdates cfg hnd hr]
    cases hu : reservationUpdate cfg r with
    | none => exact hpt r hr
    | some u =>
      obtain ⟨hatt, hst⟩ := reservationUpdate_status hu
      obtain ⟨st, cnt, la⟩ := u
      show r.id ∈ s.inFlightReservationIds ↔ st = .processing
      constructor
      · intro hin
        have hpr := (hpt r hr).1 hin
        rw [hatt] at hpr
        exact RStatus.noConfusion hpr
      · intro hpr
        rcases hst with hh | hh
        · have hh' : st = RStatus.expired := hh
          rw [hh'] at hpr
          exact RStatus.noConfusion hpr
        · have hh' : st = RStatus.attention := hh
          rw [hh'] at hpr
          exact RStatus.noConfusion hpr
  · intro id hid
    exact exists_map_id (fun r => applyUpdate_id r _) (hw id hid)
  · exact hfb

theorem inv_confirmationTickStep (replies : String → Option ReplyPayload)
    {s : EngineState} (h : InFlightInv s) :
    InFlightInv (confirmationTickStep replies s) := by
  obtain ⟨hnd, hpt, hw, hfb⟩ := h
  have hidpres : ∀ c d r, (confirmationResolve c d r).id = r.id := by
    intro c d r
    unfold confirmationResolve
    split
    · rfl
    · split
      · rfl
      · split <;> rfl
  refine ⟨?_, ?_, ?_, ?_⟩
  · show ((s.reservations.map _).map Reservation.id).Nodup
    rw [ids_map_pres (hidpres _ _)]
    exact hnd
  · intro r' hr'
    have hr'' : r' ∈ s.reservations.map (confirmationResolve
        (confirmationIds replies s.reservations).1
        (confirmationIds replies s.reservations).2) := hr'
    obtain ⟨r, hr, rfl⟩ := List.mem_map.1 hr''
    unfold confirmationResolve
    split
    · exact hpt r hr
    · rename_i hatt
      have hatt' : r.status = .attention := not_not.1 hatt
      have hnin : r.id ∉ s.inFlightReservationIds := by
        intro hin
        have := (hpt r hr).1 hin
        rw [hatt'] at this
        exact RStatus.noConfusion this
      split
      · constructor
        · intro hin
          exact absurd hin hnin
        · intro hst
          exact RStatus.noConfusion hst
      · split
        · constructor
          · intro hin
            exact absurd hin hnin
          · intro hst
            exact RStatus.noConfusion hst
        · exact hpt r hr
  · intro id hid
    exact exists_map_id (hidpres _ _) (hw id hid)
  · exact hfb

theorem inv_addReservationStep (entry : NewReservationEntry) (id : String)
    (now : ℚ) {s : EngineState} (hfresh : ∀ r ∈ s.reservations, r.id ≠ id)
    (h : InFlightInv s) : InFlightInv (addReservationStep entry id now s) := by
  obtain ⟨hnd, hpt, hw, hfb⟩ := h
  refine ⟨?_, ?_, ?_, ?_⟩
  · show ((s.reservations ++ [_]).map Reservation.id).Nodup
    rw [List.map_append, List.nodup_append]
    refine ⟨hnd, List.nodup_singleton _, ?_⟩
    intro x hx hx'
    simp only [List.map_cons, List.map_nil, List.mem_singleton] at hx'
    obtain ⟨r, hr, hrid⟩ := List.mem_map.1 hx
    exact hfresh r hr (by rw [hrid, hx'])
  · intro r' hr'
    have hr'' : r' ∈ s.reservations ++ [_] := hr'
    rw [List.mem_append] at hr''
    rcases hr'' with hmem | hmem
    · exact hpt r' hmem
    · rw [List.mem_singleton] at hmem
      subst hmem
      constructor
      · intro hin
        obtain ⟨r, hrmem, hrid⟩ := hw _ hin
        exact absurd hrid (hfresh r hrmem)
      · intro hst
        exact RStatus.noConfusion hst
  · intro id' hid'
    obtain ⟨r, hr, hrid⟩ := hw id' hid'
    exact ⟨r, List.mem_append_left _ hr, hrid⟩
  · exact hfb

theorem inv_removeReservationStep (id : String) {s : EngineState}
    (h : InFlightInv s) : InFlightInv (removeReservationStep id s) := by
  obtain ⟨hnd, hpt, hw, hfb⟩ := h
  refine ⟨?_, ?_, ?_, ?_⟩
  · show ((s.reservations.filter _).map Reservation.id).Nodup
    exact hnd.sublist ((List.filter_sublist _).map Reservation.id)
  · intro r' hr'
    have hr'' : r' ∈ s.reservations.filter (fun r => r.id ≠ id) := hr'
    rw [List.mem_filter] at hr''
    have hrid : r'.id ≠ id := by simpa using hr''.2
    show r'.id ∈ setDelete s.inFlightReservationIds id ↔ _
    rw [mem_setDelete]
    constructor
    · rintro ⟨hin, -⟩
      exact (hpt r' hr''.1).1 hin
    · intro hst
      exact ⟨(hpt r' hr''.1).2 hst, hrid⟩
  · intro id' hid'
    have hid'' : id' ∈ setDelete s.inFlightReservationIds id := hid'
    rw [mem_setDelete] at hid''
    obtain ⟨r, hr, hrid⟩ := hw id' hid''.1
    refine ⟨r, List.mem_filter.2 ⟨hr, ?_⟩, hrid⟩
    simp only [decide_eq_true_eq, ne_eq]
    rw [hrid]
    exact hid''.2
  · intro p hp
    exact hfb p (mem_mapDelete hp)

theorem clearAuto_inFlight_mem {ids : List String} :
    ∀ {s : EngineState} {x : String},
      x ∈ (clearReservationAutomationState ids s).inFlightReservationIds →
      x ∈ s.inFlightReservationIds ∧ x ∉ ids := by
  induction ids with
  | nil =>
    intro s x h
    exact ⟨h, List.not_mem_nil x⟩
  | cons i t ih =>
    intro s x h
    obtain ⟨h1, h2⟩ := ih (s := clearAutomationForId i s) h
    have h1' : x ∈ setDelete s.inFlightReservationIds i := h1
    rw [mem_setDelete] at h1'
    refine ⟨h1'.1, ?_⟩
    rw [List.mem_cons]
    rintro (rfl | hx)
    · exact h1'.2 rfl
    · exact h2 hx

theorem clearAuto_fallback_mem {ids : List String} :
    ∀ {s : EngineState} {p : String × RStatus},
      p ∈ (clearReservationAutomationState ids s).pendingFallbackStatuses →
      p ∈ s.pendingFallbackStatuses := by
  induction ids with
  | nil =>
    intro s p h
    exact h
  | cons i t ih =>
    intro s p h
    have := ih (s := clearAutomationForId i s) h
    exact mem_mapDelete this

theorem inv_clearReservationsStep {s : EngineState} (h : InFlightInv s) :
    InFlightInv (clearReservationsStep s) := by
  obtain ⟨hnd, hpt, hw, hfb⟩ := h
  refine ⟨?_, ?_, ?_, ?_⟩
  · exact List.nodup_nil
  · intro r hr
    exact absurd hr (List.not_mem_nil r)
  · intro id' hid'
    obtain ⟨hin, hnotin⟩ := clearAuto_inFlight_mem hid'
    obtain ⟨r, hr, hrid⟩ := hw id' hin
    exact absurd (hrid ▸ List.mem_map_of_mem Reservation.id hr) hnotin
  · intro p hp
    exact hfb p (clearAuto_fallback_mem hp)

theorem inv_addWaitlistStep (entry : NewWaitlistEntry) (id : String)
    (now : ℚ) {s : EngineState} (h : InFlightInv s) :
    InFlightInv (addWaitlistStep entry id now s) := by
  obtain ⟨hnd, hpt, hw, hfb⟩ := h
  exact ⟨hnd, hpt, hw, hfb⟩

theorem inv_removeWaitlistStep (id : String) {s : EngineState}
    (h : InFlightInv s) : InFlightInv (removeWaitlistStep id s) := by
  obtain ⟨hnd, hpt, hw, hfb⟩ := h
  exact ⟨hnd, hpt, hw, hfb⟩

/-- Every engine operation preserves the in-flight guard invariant. -/
theorem inv_step {s s' : EngineState} (hstep : Step s s')
    (h : InFlightInv s) : InFlightInv s' := by
  cases hstep with
  | reminder cfg s => exact inv_reminderTickStep cfg h
  | confirmation replies s => exact inv_confirmationTickStep replies h
  | matcher as now s => exact inv_matcherTick as now h
  | manual as now wlId s => exact inv_markWaitlistContacted as now wlId h
  | matcherTimeout resId wlId s => exact inv_matcherTimeoutFire resId wlId h
  | manualTimeout resId wlId s => exact inv_manualTimeoutFire resId wlId h
  | offer resId wlId payload s hpm =>
    exact inv_offerReconcilerStep resId wlId payload h
  | matcherRollback resId wlId s =>
    exact inv_matcherSendFailureRollback resId wlId h
  | manualRollback resId wlId prevStatus s hprev =>
    exact inv_manualSendFailureRollback resId wlId hprev h
  | addRes entry id now s hfresh =>
    exact inv_addReservationStep entry id now hfresh h
  | removeRes id s => exact inv_removeReservationStep id h
  | clearRes s => exact inv_clearReservationsStep h
  | addWl entry id now s => exact inv_addWaitlistStep entry id now h
  | removeWl id s => exact inv_removeWaitlistStep id h

/-- The in-flight guard invariant holds in every reachable state. -/
theorem inv_reachable {s : EngineState} (h : Reachable s) : InFlightInv s := by
  induction h with
  | init =>
    refine ⟨?_, ?_, ?_, ?_⟩ <;> simp [initState]
  | step hr hs ih => exact inv_step hs ih

/-! ## Claim theorems -/

theorem reservation_status_eta {r : Reservation} {σ : RStatus}
    (h : r.status = σ) : { r with status := σ } = r := by
  subst h
  rfl

/-- In a `prev.map(w => w.id === mid ? {...w, status: ν} : w)` update,
every element carrying the target id ends with status `ν`. -/
theorem mem_map_override_status {wl : List WaitlistEntry} {mid : String}
    {ν : Option WStatus} :
    ∀ w ∈ wl.map (fun p => if p.id = mid then { p with status := ν } else p),
      w.id = mid → w.status = ν := by
  intro w hw hid
  obtain ⟨w1, hw1, rfl⟩ := List.mem_map.1 hw
  by_cases h1 : w1.id = mid
  · show (if w1.id = mid then { w1 with status := ν } else w1).status = ν
    rw [if_pos h1]
  · exfalso
    apply h1
    have h2 : (if w1.id = mid then { w1 with status := ν } else w1).id =
        mid := hid
    rwa [if_neg h1] at h2


/-- C3: In every state of the engine reachable by any sequence of
operations (automatic matching, manual contact, response-timeout firing,
offer/confirmation reconciliation, send-failure rollback, reservation
add/remove/clear, waitlist add/remove, reminder and confirmation ticks), a
reservation id is a member of the in-flight guard set if and only if that
reservation exists and its status is `processing`. -/
theorem inflight_guard_iff_processing {s : EngineState} (hs : Reachable s)
    (id : String) :
    id ∈ s.inFlightReservationIds ↔
      ∃ r ∈ s.reservations, r.id = id ∧ r.status = .processing := by
  obtain ⟨hnd, hpt, hw, hfb⟩ := inv_reachable hs
  constructor
  · intro hin
    obtain ⟨r, hr, hrid⟩ := hw id hin
    exact ⟨r, hr, hrid, (hpt r hr).1 (hrid ▸ hin)⟩
  · rintro ⟨r, hr, rfl, hst⟩
    exact (hpt r hr).2 hst

def c3Settings : AutomationSettings := ⟨0, 10, .whatsapp⟩

def c3Cfg : TickConfig :=
  ⟨⟨120, 30⟩, c3Settings, 1000000000000, 1000000000000, 0⟩

/-- A concrete reachable state in which reservation `"r1"` has been
matched to waitlist entry `"w1"` and is `processing`. -/
def c3State : EngineState :=
  matcherTick c3Settings 7
    (addWaitlistStep ⟨"Eve", "+32470000000", 4⟩ "w1" 5
      (reminderTickStep c3Cfg
        (addReservationStep ⟨"Alice", "+32471111111", 4, "12:00"⟩ "r1" 1
          initState)))

/-- Witness for C3 at a concrete reachable state. -/
theorem inflight_guard_iff_processing_witness :
    "r1" ∈ c3State.inFlightReservationIds ↔
      ∃ r ∈ c3State.reservations, r.id = "r1" ∧ r.status = .processing :=
  inflight_guard_iff_processing
    (Reachable.step
      (Reachable.step
        (Reachable.step
          (Reachable.step Reachable.init
            (Step.addRes _ "r1" 1 _ (fun r hr => absurd hr (List.not_mem_nil r))))
          (Step.reminder c3Cfg _))
        (Step.addWl _ "w1" 5 _))
      (Step.matcher c3Settings 7 _)) "r1"

/-- C10: the response-timeout duration armed by both the automatic
Waitlist Matcher and the Manual Contact Flow equals
`max(waitlistResponseMinutes, 1) * 60000` milliseconds; for every
configured `waitlistResponseMinutes < 1` the armed timeout is exactly one
minute (60000 ms). -/
theorem responseTimeout_clamped (as : AutomationSettings) (now : ℚ)
    (s : EngineState) :
    (∀ r0 m, s.reservations.find? (fun r =>
        decide (r.status = .expired ∧ r.id ∉ s.inFlightReservationIds)) =
        some r0 →
      selectWaitlistMatch s.waitlist r0.partySize = some m →
      mapLookup (matcherTick as now s).fillTimeouts r0.id =
        some (max as.waitlistResponseMinutes 1 * 60000)) ∧
    (∀ wlId entry cand, s.waitlist.find? (fun e => e.id == wlId) = some entry →
      selectCandidateReservation s.reservations s.inFlightReservationIds
        entry.partySize = some cand →
      mapLookup (markWaitlistContacted as now wlId s).fillTimeouts cand.id =
        some (max as.waitlistResponseMinutes 1 * 60000)) ∧
    (as.waitlistResponseMinutes < 1 →
      max as.waitlistResponseMinutes 1 * 60000 = 60000) := by
  refine ⟨?_, ?_, ?_⟩
  · intro r0 m hfind hsel
    unfold matcherTick
    split
    · rename_i heq
      rw [hfind] at heq
      exact Option.noConfusion heq
    · rename_i r0' heq
      rw [hfind] at heq
      injection heq with heq'
      subst heq'
      split
      · rename_i hsel'
        rw [hsel] at hsel'
        exact Option.noConfusion hsel'
      · rename_i m' hsel'
        rw [hsel] at hsel'
        injection hsel' with hm
        subst hm
        exact mapLookup_mapSet_self _ _ _
  · intro wlId entry cand hfind hsel
    unfold markWaitlistContacted
    split
    · rename_i heq
      rw [hfind] at heq
      exact Option.noConfusion heq
    · rename_i entry' heq
      rw [hfind] at heq
      injection heq with heq'
      subst heq'
      split
      · rename_i hsel'
        rw [hsel] at hsel'
        exact Option.noConfusion hsel'
      · rename_i cand' hsel'
        rw [hsel] at hsel'
        injection hsel' with hc
        subst hc
        exact mapLookup_mapSet_self _ _ _
  · intro hlt
    rw [max_eq_right hlt.le, one_mul]

def c10Res : Reservation :=
  ⟨"r1", "Alice", "+32471111111", "12:00", some 1, 4, .expired, false, none,
    240, 0, none⟩

def c10Wl : WaitlistEntry :=
  ⟨"w1", "Eve", "+32470000000", 4, some .waiting, some 2, none⟩

def c10State : EngineState :=
  { initState with reservations := [c10Res], waitlist := [c10Wl] }

def c10Settings : AutomationSettings := ⟨15, (1 : ℚ)/2, .whatsapp⟩

/-- Witness for C10 with `waitlistResponseMinutes = 1/2 < 1`. -/
theorem responseTimeout_clamped_witness :
    mapLookup (matcherTick c10Settings 7 c10State).fillTimeouts "r1" =
      some (max ((1 : ℚ)/2) 1 * 60000) ∧
    mapLookup (markWaitlistContacted c10Settings 7 "w1" c10State).fillTimeouts
      "r1" = some (max ((1 : ℚ)/2) 1 * 60000) ∧
    max ((1 : ℚ)/2) 1 * 60000 = 60000 := by
  refine ⟨?_, ?_, ?_⟩
  · exact (responseTimeout_clamped c10Settings 7 c10State).1 c10Res c10Wl
      (by decide) (by decide)
  · exact (responseTimeout_clamped c10Settings 7 c10State).2.1 "w1" c10Wl
      c10Res (by decide) (by decide)
  · exact (responseTimeout_clamped c10Settings 7 c10State).2.2
      (by norm_num [c10Settings])

/-- C2: For the reservation the automatic Waitlist Matcher processes (the
first `expired` reservation not in the in-flight guard), the selected
waitlist entry is, among all entries whose `partySize` equals the
reservation's and whose status is `waiting`, one with minimal `createdAt`
(strict FIFO, no partial size matches); of two such waiting entries with
`createdAt` `t1 < t2`, the `t2` entry is never the selection; and when no
matching entry exists, the reservation's status becomes `unfilled`. -/
theorem matcher_fifo_selection {s : EngineState} {r0 : Reservation}
    (hfind : s.reservations.find? (fun r =>
      decide (r.status = .expired ∧ r.id ∉ s.inFlightReservationIds)) =
      some r0) :
    (∀ m, selectWaitlistMatch s.waitlist r0.partySize = some m →
      m ∈ s.waitlist ∧ m.partySize = r0.partySize ∧ m.statusD = .waiting ∧
      (∀ e ∈ s.waitlist, e.partySize = r0.partySize → e.statusD = .waiting →
        m.createdAtD ≤ e.createdAtD) ∧
      (∀ e1 e2, e1 ∈ s.waitlist → e2 ∈ s.waitlist →
        e1.partySize = r0.partySize → e1.statusD = .waiting →
        e2.partySize = r0.partySize → e2.statusD = .waiting →
        e1.createdAtD < e2.createdAtD → m ≠ e2)) ∧
    (selectWaitlistMatch s.waitlist r0.partySize = none →
      ∀ (as : AutomationSettings) (now : ℚ),
        ∀ r' ∈ (matcherTick as now s).reservations, r'.id = r0.id →
          r'.status = .unfilled) := by
  constructor
  · intro m hsel
    unfold selectWaitlistMatch at hsel
    have hmem := jsSortMinBy_mem _ hsel
    have hmin := jsSortMinBy_min _ hsel
    rw [List.mem_filter] at hmem
    have hprops : m.partySize = r0.partySize ∧ m.statusD = .waiting := by
      simpa using hmem.2
    have hle : ∀ e ∈ s.waitlist, e.partySize = r0.partySize →
        e.statusD = .waiting → m.createdAtD ≤ e.createdAtD := by
      intro e he hsz hst
      exact hmin e (List.mem_filter.2 ⟨he, by simp [hsz, hst]⟩)
    refine ⟨hmem.1, hprops.1, hprops.2, hle, ?_⟩
    intro e1 e2 he1 he2 hsz1 hst1 hsz2 hst2 hlt hme2
    have h1 := hle e1 he1 hsz1 hst1
    rw [hme2] at h1
    exact absurd hlt (not_lt.2 h1)
  · intro hsel as now r' hr' hid
    unfold matcherTick at hr'
    split at hr'
    · rename_i heq
      rw [hfind] at heq
      exact Option.noConfusion heq
    · rename_i r0' heq
      rw [hfind] at heq
      injection heq with heq'
      subst heq'
      split at hr'
      · obtain ⟨r, hr, rfl⟩ := List.mem_map.1 hr'
        by_cases hidr : r.id = r0.id
        · rw [if_pos hidr]
        · rw [if_neg hidr] at hid
          exact absurd hid hidr
      · rename_i m hsel2
        rw [hsel] at hsel2
        exact Option.noConfusion hsel2

def c2E1 : WaitlistEntry := ⟨"w1", "A", "1", 4, some .waiting, some 10, none⟩

def c2E2 : WaitlistEntry := ⟨"w2", "B", "2", 4, some .waiting, some 20, none⟩

def c2Res : Reservation :=
  ⟨"r1", "Alice", "3", "12:00", some 1, 4, .expired, false, none, 240, 0,
    none⟩

/-- Waitlist stored newest-first, to exercise the FIFO tie to `createdAt`
rather than list order. -/
def c2State : EngineState :=
  { initState with reservations := [c2Res], waitlist := [c2E2, c2E1] }

def c2StateB : EngineState := { initState with reservations := [c2Res] }

/-- Witness for C2: the earlier-created entry is selected, and with no
matching entry the reservation ends `unfilled`. -/
theorem matcher_fifo_selection_witness :
    (c2E1 ∈ c2State.waitlist ∧ c2E1.createdAtD ≤ c2E2.createdAtD ∧
      c2E1 ≠ c2E2) ∧
    Reservation.status
      ⟨"r1", "Alice", "3", "12:00", some 1, 4, .unfilled, false, none, 240,
        0, none⟩ = .unfilled := by
  constructor
  · have h := (@matcher_fifo_selection c2State c2Res (by decide)).1 c2E1
      (by decide)
    exact ⟨h.1, h.2.2.2.1 c2E2 (by decide) (by decide) (by decide),
      h.2.2.2.2 c2E1 c2E2 (by decide) (by decide) (by decide) (by decide)
        (by decide) (by decide) (by decide)⟩
  · exact (@matcher_fifo_selection c2StateB c2Res (by decide)).2 (by decide)
      c3Settings 7 _ (by decide) (by decide)

/-- C1: when the Offer Reconciler accepts a confirm reply for a
reservation with a pending waitlist match (the reservation still exists
with status `processing`, the paired waitlist entry still exists with a
set `lastContactedAt`, and the reply's timestamp is ≥ `lastContactedAt`),
it cancels the armed response-timeout, sets the reservation to `filled`,
sets `originalGuestName` to the reservation's current name only if not
already set, overwrites `name`/`phone` with the waitlist guest's, sets
`filledFromWaitlist := true`, and deletes the waitlist entry. -/
theorem offer_confirm_fills {s : EngineState} {resId wlId : String}
    {r : Reservation} {w : WaitlistEntry} {payload : Option ReplyPayload}
    (_hpm : mapLookup s.pendingWaitlistMatches resId = some wlId)
    (hfr : s.reservations.find? (fun q => q.id == resId) = some r)
    (hst : r.status = .processing)
    (hfw : s.waitlist.find? (fun v => v.id == wlId) = some w)
    (hcontacted : w.lastContactedAt.getD 0 ≠ 0)
    (hfresh : w.lastContactedAt.getD 0 ≤ replyUpdatedAt payload)
    (hconf : replyConfirmed payload = true) :
    mapLookup (offerReconcilerStep s resId wlId payload).fillTimeouts resId =
      none ∧
    { r with
      status := .filled,
      originalGuestName := some (r.originalGuestName.getD r.name),
      name := w.name,
      phone := w.phone,
      filledFromWaitlist := true } ∈
      (offerReconcilerStep s resId wlId payload).reservations ∧
    (offerReconcilerStep s resId wlId payload).waitlist =
      s.waitlist.filter (fun w' => w'.id ≠ wlId) := by
  have hrid : r.id = resId := by
    have := List.find?_some hfr
    simpa using this
  unfold offerReconcilerStep
  split
  · rename_i heq
    rw [hfr] at heq
    exact Option.noConfusion heq
  · rename_i r' heq
    rw [hfr] at heq
    injection heq with heq'
    subst heq'
    split
    · rename_i hne
      exact absurd hst hne
    · split
      · rename_i heqw
        rw [hfw] at heqw
        exact Option.noConfusion heqw
      · rename_i w' heqw
        rw [hfw] at heqw
        injection heqw with heqw'
        subst heqw'
        dsimp only
        have hguard : ¬(w.lastContactedAt.getD 0 = 0 ∨
            replyUpdatedAt payload < w.lastContactedAt.getD 0) := by
          push_neg
          exact ⟨hcontacted, hfresh⟩
        have hamb : ¬((!replyConfirmed payload && !replyDeclined payload)
            = true) := by
          rw [hconf]
          simp
        rw [if_neg hguard, if_neg hamb, if_pos hconf]
        refine ⟨?_, ?_, ?_⟩
        · exact mapLookup_mapDelete_self _ _
        · refine List.mem_map.2 ⟨r, List.mem_of_find?_eq_some hfr, ?_⟩
          dsimp only
          rw [if_pos ⟨hrid, hst⟩]
        · rfl

/-- A computed update never decreases `reminderCount` and never raises it
past 2. -/
theorem reservationUpdate_count {cfg : TickConfig} {r : Reservation}
    {u : RStatus × Nat × Option ℚ} (h : reservationUpdate cfg r = some u) :
    r.reminderCount ≤ u.2.1 ∧ (r.reminderCount ≤ 2 → u.2.1 ≤ 2) := by
  unfold reservationUpdate at h
  split at h
  · split at h
    · exact absurd h (by simp)
    · dsimp only at h
      split at h
      · rename_i cnt la heq
        split at heq
        · rename_i hc2
          injection heq with heq'
          injection h with h'
          subst h'
          rw [← heq']
          exact ⟨le_of_lt hc2.1, fun _ => le_refl 2⟩
        · split at heq
          · rename_i hc1
            injection heq with heq'
            injection h with h'
            subst h'
            rw [← heq']
            exact ⟨le_of_lt hc1.1, fun _ => by norm_num⟩
          · exact absurd heq (by simp)
      · split at h
        · injection h with h'
          subst h'
          exact ⟨le_refl _, fun hh => hh⟩
        · exact absurd h (by simp)
  · exact absurd h (by simp)

/-- Ids are unchanged by a reminder tick. -/
theorem reminderTick_ids (cfg : TickConfig) (rs : List Reservation) :
    (reminderTickReservations cfg rs).map Reservation.id =
      rs.map Reservation.id := by
  unfold reminderTickReservations
  exact ids_map_pres (fun r => applyUpdate_id r _)

theorem forall2_map_self {α : Type} {R : α → α → Prop} {g : α → α}
    (l : List α) (h : ∀ a ∈ l, R a (g a)) : List.Forall₂ R l (l.map g) := by
  induction l with
  | nil => exact List.Forall₂.nil
  | cons a t ih =>
    exact List.Forall₂.cons (h a (List.mem_cons_self a t))
      (ih (fun b hb => h b (List.mem_cons_of_mem a hb)))

theorem forall2_trans {α : Type} {R : α → α → Prop}
    (htrans : ∀ a b c, R a b → R b c → R a c) :
    ∀ {l1 l2 l3 : List α}, List.Forall₂ R l1 l2 → List.Forall₂ R l2 l3 →
      List.Forall₂ R l1 l3 := by
  intro l1 l2 l3 h12 h23
  induction h12 generalizing l3 with
  | nil =>
    cases h23
    exact List.Forall₂.nil
  | cons hab h ih =>
    cases h23 with
    | cons hbc h' => exact List.Forall₂.cons (htrans _ _ _ hab hbc) (ih h')

/-- C6: across one reminder-scheduler tick (and pointwise across any
sequence of ticks), every reservation's `reminderCount` is non-decreasing
and stays ≤ 2, and it only changes while the reservation's status is
`attention`. -/
theorem reminder_count_monotone :
    (∀ (cfg : TickConfig) (rs : List Reservation),
      (rs.map Reservation.id).Nodup →
      List.Forall₂ (fun r r' =>
        r.reminderCount ≤ r'.reminderCount ∧
        (r.reminderCount ≤ 2 → r'.reminderCount ≤ 2) ∧
        (r'.reminderCount ≠ r.reminderCount → r.status = .attention))
        rs (reminderTickReservations cfg rs)) ∧
    (∀ (cfgs : List TickConfig) (rs : List Reservation),
      (rs.map Reservation.id).Nodup →
      List.Forall₂ (fun r r' =>
        r.reminderCount ≤ r'.reminderCount ∧
        (r.reminderCount ≤ 2 → r'.reminderCount ≤ 2))
        rs (cfgs.foldl (fun acc cfg => reminderTickReservations cfg acc)
          rs)) := by
  have hsingle : ∀ (cfg : TickConfig) (rs : List Reservation),
      (rs.map Reservation.id).Nodup →
      List.Forall₂ (fun r r' =>
        r.reminderCount ≤ r'.reminderCount ∧
        (r.reminderCount ≤ 2 → r'.reminderCount ≤ 2) ∧
        (r'.reminderCount ≠ r.reminderCount → r.status = .attention))
        rs (reminderTickReservations cfg rs) := by
    intro cfg rs hnd
    rw [reminderTickReservations_eq_map cfg hnd]
    refine forall2_map_self rs ?_
    intro r _
    cases hu : reservationUpdate cfg r with
    | none =>
      refine ⟨le_refl _, fun hh => hh, fun hne => absurd rfl hne⟩
    | some u =>
      obtain ⟨hcnt1, hcnt2⟩ := reservationUpdate_count hu
      obtain ⟨hatt, -⟩ := reservationUpdate_status hu
      obtain ⟨st, cnt, la⟩ := u
      exact ⟨hcnt1, hcnt2, fun _ => hatt⟩
  refine ⟨hsingle, ?_⟩
  intro cfgs
  induction cfgs with
  | nil =>
    intro rs hnd
    rw [List.foldl_nil]
    exact List.forall₂_same.2 (fun a _ => ⟨le_refl _, fun hh => hh⟩)
  | cons cfg cfgs ih =>
    intro rs hnd
    rw [List.foldl_cons]
    refine forall2_trans ?_
      ((hsingle cfg rs hnd).imp (fun ha hb hr => ⟨hr.1, hr.2.1⟩))
      (ih (reminderTickReservations cfg rs) ?_)
    · intro a b c hab hbc
      exact ⟨le_trans hab.1 hbc.1, fun hh => hbc.2 (hab.2 hh)⟩
    · rw [reminderTick_ids]
      exact hnd

theorem waitlist_status_eta {w : WaitlistEntry} {ν : Option WStatus}
    (h : w.status = ν) : { w with status := ν } = w := by
  subst h
  rfl

/-- The guarded reservation update of the timeout callbacks is the
identity when no reservation with the target id is `processing`. -/
theorem guarded_map_noop {rs : List Reservation} {resId : String}
    {g : Reservation → Reservation}
    (h : ∀ r ∈ rs, r.id = resId → r.status ≠ .processing) :
    rs.map (fun r =>
      if r.id = resId ∧ r.status = .processing then g r else r) = rs := by
  refine (List.map_congr_left ?_).trans (List.map_id _)
  intro r hr
  have hcond : ¬(r.id = resId ∧ r.status = RStatus.processing) := by
    rintro ⟨hid, hstp⟩
    exact h r hr hid hstp
  rw [if_neg hcond]
  rfl

/-- The unguarded waitlist status overwrite of the timeout callbacks is
the identity when every entry with the target id already has that
status. -/
theorem override_map_noop {wl : List WaitlistEntry} {wlId : String}
    {ν : Option WStatus}
    (h : ∀ w ∈ wl, w.id = wlId → w.status = ν) :
    wl.map (fun w => if w.id = wlId then { w with status := ν } else w) =
      wl := by
  refine (List.map_congr_left ?_).trans (List.map_id _)
  intro w hw
  by_cases hid : w.id = wlId
  · rw [if_pos hid]
    exact waitlist_status_eta (h w hw hid)
  · rw [if_neg hid]
    rfl

/-- C7: a response-timeout that fires after its offer has been resolved is
a no-op. (i) Both timeout callbacks re-check `status == "processing"`, so
whenever the paired reservation is no longer `processing` the reservation
list is unchanged; (ii) in a resolved state (every entry with the paired
id deleted or `declined`) the waitlist is unchanged too; (iii) an
accepted offer resolution (confirm or decline) produces exactly such a
state. -/
theorem timeout_after_resolution_noop :
    (∀ (s : EngineState) (resId wlId : String),
      (∀ r ∈ s.reservations, r.id = resId → r.status ≠ .processing) →
      (matcherTimeoutFire resId wlId s).reservations = s.reservations ∧
      (manualTimeoutFire resId wlId s).reservations = s.reservations) ∧
    (∀ (s : EngineState) (resId wlId : String),
      (∀ r ∈ s.reservations, r.id = resId → r.status ≠ .processing) →
      (∀ w ∈ s.waitlist, w.id = wlId → w.status = some WStatus.declined) →
      (matcherTimeoutFire resId wlId s).waitlist = s.waitlist ∧
      (manualTimeoutFire resId wlId s).waitlist = s.waitlist) ∧
    (∀ (s : EngineState) (resId wlId : String)
       (payload : Option ReplyPayload) (r : Reservation) (w : WaitlistEntry),
      s.reservations.find? (fun q => q.id == resId) = some r →
      r.status = .processing →
      s.waitlist.find? (fun v => v.id == wlId) = some w →
      w.lastContactedAt.getD 0 ≠ 0 →
      w.lastContactedAt.getD 0 ≤ replyUpdatedAt payload →
      (replyConfirmed payload = true ∨ replyDeclined payload = true) →
      (∀ p ∈ s.pendingFallbackStatuses, p.2 ≠ .processing) →
      (∀ q ∈ (offerReconcilerStep s resId wlId payload).reservations,
        q.id = resId → q.status ≠ .processing) ∧
      (∀ w' ∈ (offerReconcilerStep s resId wlId payload).waitlist,
        w'.id = wlId → w'.status = some WStatus.declined)) := by
  refine ⟨?_, ?_, ?_⟩
  · intro s resId wlId h
    exact ⟨guarded_map_noop h, guarded_map_noop h⟩
  · intro s resId wlId h hwl
    exact ⟨override_map_noop hwl, override_map_noop hwl⟩
  · intro s resId wlId payload r w hfr hst hfw hcontacted hfresh haccept hfb
    have hguard : ¬(w.lastContactedAt.getD 0 = 0 ∨
        replyUpdatedAt payload < w.lastContactedAt.getD 0) := by
      push_neg
      exact ⟨hcontacted, hfresh⟩
    have hamb : ¬((!replyConfirmed payload && !replyDeclined payload)
        = true) := by
      rcases haccept with h | h <;> rw [h] <;> simp
    unfold offerReconcilerStep
    split
    · rename_i heq
      rw [hfr] at heq
      exact Option.noConfusion heq
    · rename_i r' heq
      rw [hfr] at heq
      injection heq with h'
      subst h'
      split
      · rename_i hne
        exact absurd hst hne
      · split
        · rename_i heqw
          rw [hfw] at heqw
          exact Option.noConfusion heqw
        · rename_i w' heqw
          rw [hfw] at heqw
          injection heqw with h''
          subst h''
          dsimp only
          rw [if_neg hguard, if_neg hamb]
          by_cases hconf : replyConfirmed payload = true
          · rw [if_pos hconf]
            constructor
            · intro q hq hid
              obtain ⟨q0, hq0, rfl⟩ := List.mem_map.1 hq
              split
              · intro hh
                exact RStatus.noConfusion hh
              · rename_i hc
                have hid0 : q0.id = resId := by
                  rwa [if_neg hc] at hid
                rw [not_and_or] at hc
                rcases hc with hcid | hcst
                · exact absurd hid0 hcid
                · exact hcst
            · intro w' hw' hid
              have h2 := List.mem_filter.1 hw'
              exact absurd hid (by simpa using h2.2)
          · rw [if_neg hconf]
            constructor
            · intro q hq hid
              obtain ⟨q0, hq0, rfl⟩ := List.mem_map.1 hq
              split
              · intro hh
                exact fallback_lookup_ne_processing hfb resId hh
              · rename_i hc
                have hid0 : q0.id = resId := by
                  rwa [if_neg hc] at hid
                rw [not_and_or] at hc
                rcases hc with hcid | hcst
                · exact absurd hid0 hcid
                · exact hcst
            · exact mem_map_override_status

def c7Res : Reservation :=
  ⟨"r1", "Alice", "3", "19:00", some 1, 4, .processing, false, none, 240,
    0, none⟩

def c7Wl : WaitlistEntry :=
  ⟨"w1", "Eve", "5", 4, some .contacted, some 2, some 100⟩

def c7State : EngineState :=
  { initState with
    reservations := [c7Res], waitlist := [c7Wl],
    inFlightReservationIds := ["r1"], fillTimeouts := [("r1", 600000)],
    pendingWaitlistMatches := [("r1", "w1")],
    pendingFallbackStatuses := [("r1", .expired)] }

def c7Payload : Option ReplyPayload := some ⟨true, false, 150⟩

/-- Witness for C7: after a confirm resolution, a stray timeout firing
changes neither reservations nor waitlist. -/
theorem timeout_after_resolution_noop_witness :
    (matcherTimeoutFire "r1" "w1"
        (offerReconcilerStep c7State "r1" "w1" c7Payload)).reservations =
      (offerReconcilerStep c7State "r1" "w1" c7Payload).reservations ∧
    (matcherTimeoutFire "r1" "w1"
        (offerReconcilerStep c7State "r1" "w1" c7Payload)).waitlist =
      (offerReconcilerStep c7State "r1" "w1" c7Payload).waitlist ∧
    (manualTimeoutFire "r1" "w1"
        (offerReconcilerStep c7State "r1" "w1" c7Payload)).reservations =
      (offerReconcilerStep c7State "r1" "w1" c7Payload).reservations ∧
    (manualTimeoutFire "r1" "w1"
        (offerReconcilerStep c7State "r1" "w1" c7Payload)).waitlist =
      (offerReconcilerStep c7State "r1" "w1" c7Payload).waitlist := by
  have hres := timeout_after_resolution_noop.2.2 c7State "r1" "w1" c7Payload
    c7Res c7Wl (by decide) rfl (by decide) (by decide) (by decide)
    (Or.inl rfl) (by decide)
  have ha := timeout_after_resolution_noop.1
    (offerReconcilerStep c7State "r1" "w1" c7Payload) "r1" "w1" hres.1
  have hb := timeout_after_resolution_noop.2.1
    (offerReconcilerStep c7State "r1" "w1" c7Payload) "r1" "w1" hres.1
    hres.2
  exact ⟨ha.1, hb.1, ha.2, hb.2⟩

theorem nodup_ids_unique {rs : List Reservation}
    (hnd : (rs.map Reservation.id).Nodup) {q r : Reservation} (hq : q ∈ rs)
    (hr : r ∈ rs) (hid : q.id = r.id) : q = r :=
  List.inj_on_of_nodup_map hnd hq hr hid

/-- C8: a reservation whose time string does not parse to a valid hour
(0–23) and minute (0–59) is skipped entirely by a reminder-scheduler
tick: no update is computed, no one-shot event key is recorded, no
message is queued, and (with unique ids) the reservation comes out of the
tick unchanged — in particular it is never marked `expired`. -/
theorem unparseable_time_skipped {cfg : TickConfig} {r : Reservation}
    (h : getReservationTimestampInBrussels r.time cfg.brusselsDayBase =
      none) :
    reservationUpdate cfg r = none ∧
    (∀ sent, rowEmissions cfg sent r = ([], [])) ∧
    (∀ rs, (rs.map Reservation.id).Nodup → r ∈ rs →
      r ∈ reminderTickReservations cfg rs ∧
      ∀ r' ∈ reminderTickReservations cfg rs, r'.id = r.id → r' = r) := by
  have h1 : reservationUpdate cfg r = none := by
    unfold reservationUpdate
    split
    · rw [h]
    · rfl
  refine ⟨h1, ?_, ?_⟩
  · intro sent
    unfold rowEmissions
    split
    · rw [h]
    · rfl
  · intro rs hnd hr
    rw [reminderTickReservations_eq_map cfg hnd]
    have happ : applyUpdate r (reservationUpdate cfg r) = r := by
      rw [h1]
      rfl
    constructor
    · exact List.mem_map.2 ⟨r, hr, happ⟩
    · intro r' hr' hid
      obtain ⟨q, hq, rfl⟩ := List.mem_map.1 hr'
      have hqid : q.id = r.id := by
        rw [← applyUpdate_id q (reservationUpdate cfg q)]
        exact hid
      have hqr : q = r := nodup_ids_unique hnd hq hr hqid
      rw [hqr, happ]

def c8Res : Reservation :=
  ⟨"r1", "Alice", "+32471111111", "ab:cd", some 1, 4, .attention, false,
    none, 240, 0, none⟩

def c8Cfg : TickConfig := ⟨⟨120, 30⟩, ⟨15, 10, .whatsapp⟩, 50, 42000000, 0⟩

/-- Witness for C8: the time string `"ab:cd"` does not parse, so the
reservation is skipped by the tick. -/
theorem unparseable_time_skipped_witness :
    reservationUpdate c8Cfg c8Res = none ∧
    rowEmissions c8Cfg [] c8Res = ([], []) ∧
    c8Res ∈ reminderTickReservations c8Cfg [c8Res] := by
  have h := @unparseable_time_skipped c8Cfg c8Res (by decide)
  exact ⟨h.1, h.2.1 [], (h.2.2 [c8Res] (by decide) (by decide)).1⟩

/-- C9: inbound reply classification never records a reply as both
confirmed and declined: an affirmative match (full normalized string or
first token in the positive vocabulary) is recorded `(true, false)` even
when the text also matches the negative vocabulary; `declined` is
recorded exactly when the text is not affirmative and matches the
negative vocabulary. -/
theorem reply_classification_exclusive :
    (∀ (curType : Option ConvType) (oc oe : Bool) (body : String),
      ¬((webhookRecordFlags curType oc oe body).1 = true ∧
        (webhookRecordFlags curType oc oe body).2 = true)) ∧
    (∀ body, isPositiveReply body = true →
      webhookFlags body = (true, false)) ∧
    (∀ body, (webhookFlags body).2 = true ↔
      (isPositiveReply body = false ∧ isNegativeReply body = true)) := by
  refine ⟨?_, ?_, ?_⟩
  · intro curType oc oe body
    unfold webhookRecordFlags
    split
    · simp
    · unfold webhookFlags
      dsimp only
      rintro ⟨h1, h2⟩
      rw [h1] at h2
      simp at h2
  · intro body hpos
    unfold webhookFlags
    dsimp only
    rw [hpos]
    rfl
  · intro body
    unfold webhookFlags
    dsimp only
    cases hp : isPositiveReply body <;> cases hn : isNegativeReply body <;>
      simp

/-- Witness for C9: `"ja, nee!"` matches both vocabularies and is
recorded confirmed-only; `"nee"` is recorded declined. -/
theorem reply_classification_exclusive_witness :
    webhookFlags "ja, nee!" = (true, false) ∧
    ¬((webhookRecordFlags (some .waitlist_offer) true false "ja").1 = true ∧
      (webhookRecordFlags (some .waitlist_offer) true false "ja").2 = true) ∧
    ((webhookFlags "nee").2 = true ↔
      (isPositiveReply "nee" = false ∧ isNegativeReply "nee" = true)) :=
  ⟨reply_classification_exclusive.2.1 "ja, nee!" (by decide),
   reply_classification_exclusive.1 (some .waitlist_offer) true false "ja",
   reply_classification_exclusive.2.2 "nee"⟩

def c6Res : Reservation :=
  ⟨"r1", "Alice", "+32471111111", "12:00", some 1, 4, .attention, false,
    none, 240, 0, none⟩

def c6Cfg : TickConfig := ⟨⟨120, 30⟩, ⟨15, 10, .whatsapp⟩, 50, 42000000, 0⟩

/-- Witness for C6: one tick takes the count from 0 to 1 (first reminder
due), a second identical tick takes it to 2, never past. -/
theorem reminder_count_monotone_witness :
    List.Forall₂ (fun r r' =>
      r.reminderCount ≤ r'.reminderCount ∧
      (r.reminderCount ≤ 2 → r'.reminderCount ≤ 2) ∧
      (r'.reminderCount ≠ r.reminderCount → r.status = .attention))
      [c6Res] (reminderTickReservations c6Cfg [c6Res]) ∧
    List.Forall₂ (fun r r' =>
      r.reminderCount ≤ r'.reminderCount ∧
      (r.reminderCount ≤ 2 → r'.reminderCount ≤ 2))
      [c6Res] ([c6Cfg, c6Cfg].foldl
        (fun acc cfg => reminderTickReservations cfg acc) [c6Res]) :=
  ⟨reminder_count_monotone.1 c6Cfg [c6Res] (by decide),
   reminder_count_monotone.2 [c6Cfg, c6Cfg] [c6Res] (by decide)⟩

def c1Res : Reservation :=
  ⟨"r1", "Alice", "+32471111111", "19:00", some 1, 4, .processing, false,
    none, 240, 0, none⟩

def c1Wl : WaitlistEntry :=
  ⟨"w1", "Eve", "+32470000000", 4, some .contacted, some 2, some 100⟩

def c1State : EngineState :=
  { initState with
    reservations := [c1Res], waitlist := [c1Wl],
    inFlightReservationIds := ["r1"], fillTimeouts := [("r1", 600000)],
    pendingWaitlistMatches := [("r1", "w1")],
    pendingFallbackStatuses := [("r1", .expired)] }

def c1Payload : Option ReplyPayload := some ⟨true, false, 150⟩

theorem confirmationResolve_id (c d : List String) (r : Reservation) :
    (confirmationResolve c d r).id = r.id := by
  unfold confirmationResolve
  split
  · rfl
  · split
    · rfl
    · split <;> rfl

theorem confirmationResolve_eq_self {c d : List String} {r : Reservation}
    (hc : r.id ∉ c) (hd : r.id ∉ d) : confirmationResolve c d r = r := by
  unfold confirmationResolve
  split <;> rfl

/-- An id in the first component of a scan step comes from the accumulator
or from an accepted (reminded, non-stale) reservation. -/
theorem confirmationScanStep_mem_fst (replies : String → Option ReplyPayload)
    (acc : List String × List String) (a : Reservation) {id : String}
    (h : id ∈ (confirmationScanStep replies acc a).1) :
    id ∈ acc.1 ∨ (id = a.id ∧ ¬(a.lastReminderAt.getD 0 = 0 ∨
      replyUpdatedAt (replies a.phone) <
        max (a.lastReminderAt.getD 0) (a.createdAt.getD 0))) := by
  unfold confirmationScanStep at h
  dsimp only at h
  by_cases hg : a.lastReminderAt.getD 0 = 0 ∨ replyUpdatedAt (replies a.phone)
      < max (a.lastReminderAt.getD 0) (a.createdAt.getD 0)
  · rw [if_pos hg] at h
    exact Or.inl h
  · rw [if_neg hg] at h
    have hacc1 : (if replyDeclined (replies a.phone) = true then
        (acc.1, setInsert acc.2 a.id) else acc).1 = acc.1 := by
      split <;> rfl
    by_cases hc : replyConfirmed (replies a.phone) = true
    · rw [if_pos hc] at h
      have h' : id ∈ setInsert (if replyDeclined (replies a.phone) = true then
          (acc.1, setInsert acc.2 a.id) else acc).1 a.id := h
      rw [hacc1] at h'
      rcases mem_setInsert.1 h' with rfl | h''
      · exact Or.inr ⟨rfl, hg⟩
      · exact Or.inl h''
    · rw [if_neg hc] at h
      rw [hacc1] at h
      exact Or.inl h

/-- An id in the second component of a scan step comes from the
accumulator or from an accepted reservation. -/
theorem confirmationScanStep_mem_snd (replies : String → Option ReplyPayload)
    (acc : List String × List String) (a : Reservation) {id : String}
    (h : id ∈ (confirmationScanStep replies acc a).2) :
    id ∈ acc.2 ∨ (id = a.id ∧ ¬(a.lastReminderAt.getD 0 = 0 ∨
      replyUpdatedAt (replies a.phone) <
        max (a.lastReminderAt.getD 0) (a.createdAt.getD 0))) := by
  unfold confirmationScanStep at h
  dsimp only at h
  by_cases hg : a.lastReminderAt.getD 0 = 0 ∨ replyUpdatedAt (replies a.phone)
      < max (a.lastReminderAt.getD 0) (a.createdAt.getD 0)
  · rw [if_pos hg] at h
    exact Or.inl h
  · rw [if_neg hg] at h
    have hsnd : (if replyConfirmed (replies a.phone) = true then
        (setInsert (if replyDeclined (replies a.phone) = true then
          (acc.1, setInsert acc.2 a.id) else acc).1 a.id,
         (if replyDeclined (replies a.phone) = true then
          (acc.1, setInsert acc.2 a.id) else acc).2)
        else (if replyDeclined (replies a.phone) = true then
          (acc.1, setInsert acc.2 a.id) else acc)).2 =
        (if replyDeclined (replies a.phone) = true then
          (acc.1, setInsert acc.2 a.id) else acc).2 := by
      split <;> rfl
    have h' := hsnd ▸ h
    by_cases hd : replyDeclined (replies a.phone) = true
    · rw [if_pos hd] at h'
      rcases mem_setInsert.1 h' with rfl | h''
      · exact Or.inr ⟨rfl, hg⟩
      · exact Or.inl h''
    · rw [if_neg hd] at h'
      exact Or.inl h'

/-- Ids collected by the scan fold come from the initial accumulator or
from an accepted reservation of the scanned list. -/
theorem confirmationScan_fold_mem (replies : String → Option ReplyPayload)
    (l : List Reservation) :
    ∀ (acc : List String × List String) {id : String},
      (id ∈ (l.foldl (confirmationScanStep replies) acc).1 ∨
       id ∈ (l.foldl (confirmationScanStep replies) acc).2) →
      (id ∈ acc.1 ∨ id ∈ acc.2) ∨ ∃ q ∈ l, q.id = id ∧
        ¬(q.lastReminderAt.getD 0 = 0 ∨ replyUpdatedAt (replies q.phone) <
          max (q.lastReminderAt.getD 0) (q.createdAt.getD 0)) := by
  induction l with
  | nil =>
    intro acc id h
    exact Or.inl h
  | cons a t ih =>
    intro acc id h
    rcases ih (confirmationScanStep replies acc a) h with hacc | hex
    · rcases hacc with h1 | h2
      · rcases confirmationScanStep_mem_fst replies acc a h1 with hh | hh
        · exact Or.inl (Or.inl hh)
        · exact Or.inr ⟨a, List.mem_cons_self a t, hh.1.symm ▸ ⟨rfl, hh.2⟩⟩
      · rcases confirmationScanStep_mem_snd replies acc a h2 with hh | hh
        · exact Or.inl (Or.inr hh)
        · exact Or.inr ⟨a, List.mem_cons_self a t, hh.1.symm ▸ ⟨rfl, hh.2⟩⟩
    · obtain ⟨q, hq, hrest⟩ := hex
      exact Or.inr ⟨q, List.mem_cons_of_mem a hq, hrest⟩

/-- C4: stale-reply immunity. A reply timestamped before the waitlist
entry's `lastContactedAt` leaves the offer reconciler's step a no-op on
the whole engine state; a reply timestamped before
`max(lastReminderAt, createdAt)` leaves the reservation untouched by the
confirmation reconciler's tick. -/
theorem stale_reply_immune :
    (∀ (s : EngineState) (resId wlId : String)
       (payload : Option ReplyPayload) (w : WaitlistEntry),
      s.waitlist.find? (fun v => v.id == wlId) = some w →
      replyUpdatedAt payload < w.lastContactedAt.getD 0 →
      offerReconcilerStep s resId wlId payload = s) ∧
    (∀ (replies : String → Option ReplyPayload) (rs : List Reservation)
       (r : Reservation), r ∈ rs →
      (∀ r' ∈ rs, r'.id = r.id → r' = r) →
      replyUpdatedAt (replies r.phone) <
        max (r.lastReminderAt.getD 0) (r.createdAt.getD 0) →
      r ∈ confirmationTickReservations replies rs ∧
      ∀ r' ∈ confirmationTickReservations replies rs, r'.id = r.id →
        r' = r) := by
  constructor
  · intro s resId wlId payload w hfw hstale
    unfold offerReconcilerStep
    split
    · rfl
    · split
      · rfl
      · split
        · rfl
        · rename_i w' heqw
          rw [hfw] at heqw
          injection heqw with heqw'
          subst heqw'
          dsimp only
          rw [if_pos (Or.inr hstale)]
  · intro replies rs r hr huniq hstale
    have hnot1 : r.id ∉ (confirmationIds replies rs).1 := by
      intro hmem
      have hmem' : r.id ∈ ((rs.filter (fun q =>
          decide (q.status = .attention ∧ 0 < q.reminderCount ∧
            jsTrim q.phone ≠ ""))).foldl
          (confirmationScanStep replies) ([], [])).1 := hmem
      rcases confirmationScan_fold_mem replies _ ([], [])
          (Or.inl hmem') with hbase | hex
      · rcases hbase with h | h <;> exact absurd h (List.not_mem_nil _)
      · obtain ⟨q, hqf, hqid, hqg⟩ := hex
        have hq : q ∈ rs := List.mem_of_mem_filter hqf
        have heq : q = r := huniq q hq hqid
        subst heq
        exact hqg (Or.inr hstale)
    have hnot2 : r.id ∉ (confirmationIds replies rs).2 := by
      intro hmem
      have hmem' : r.id ∈ ((rs.filter (fun q =>
          decide (q.status = .attention ∧ 0 < q.reminderCount ∧
            jsTrim q.phone ≠ ""))).foldl
          (confirmationScanStep replies) ([], [])).2 := hmem
      rcases confirmationScan_fold_mem replies _ ([], [])
          (Or.inr hmem') with hbase | hex
      · rcases hbase with h | h <;> exact absurd h (List.not_mem_nil _)
      · obtain ⟨q, hqf, hqid, hqg⟩ := hex
        have hq : q ∈ rs := List.mem_of_mem_filter hqf
        have heq : q = r := huniq q hq hqid
        subst heq
        exact hqg (Or.inr hstale)
    have hres : confirmationResolve (confirmationIds replies rs).1
        (confirmationIds replies rs).2 r = r :=
      confirmationResolve_eq_self hnot1 hnot2
    constructor
    · exact List.mem_map.2 ⟨r, hr, hres⟩
    · intro r' hr' hid
      have hr'' : r' ∈ rs.map (confirmationResolve
          (confirmationIds replies rs).1 (confirmationIds replies rs).2) :=
        hr'
      obtain ⟨q, hq, rfl⟩ := List.mem_map.1 hr''
      have hqid : q.id = r.id := by
        rw [← confirmationResolve_id (confirmationIds replies rs).1
          (confirmationIds replies rs).2 q]
        exact hid
      have heq : q = r := huniq q hq hqid
      rw [heq]
      exact hres

/-- C5: if the outbound offer send fails during matching (automatic or
manual), the rollback is complete: the armed response-timeout is
cancelled, the reservation list equals what it was before the match
attempt (in particular the matched reservation's status is restored), the
waitlist entry's status returns to `waiting`, and all in-flight
bookkeeping for the reservation is cleared. -/
theorem send_failure_rollback_complete :
    (∀ (s : EngineState) (r0 : Reservation) (m : WaitlistEntry)
       (as : AutomationSettings) (now : ℚ),
      s.reservations.find? (fun r => decide (r.status = .expired ∧
        r.id ∉ s.inFlightReservationIds)) = some r0 →
      (∀ q ∈ s.reservations, q.id = r0.id → q = r0) →
      selectWaitlistMatch s.waitlist r0.partySize = some m →
      let s2 := matcherSendFailureRollback r0.id m.id (matcherTick as now s)
      s2.reservations = s.reservations ∧
      (∀ w ∈ s2.waitlist, w.id = m.id → w.status = some WStatus.waiting) ∧
      r0.id ∉ s2.inFlightReservationIds ∧
      mapLookup s2.fillTimeouts r0.id = none ∧
      mapLookup s2.pendingWaitlistMatches r0.id = none ∧
      mapLookup s2.pendingFallbackStatuses r0.id = none) ∧
    (∀ (s : EngineState) (entry : WaitlistEntry) (cand : Reservation)
       (as : AutomationSettings) (now : ℚ) (wlId : String),
      s.waitlist.find? (fun e => e.id == wlId) = some entry →
      selectCandidateReservation s.reservations s.inFlightReservationIds
        entry.partySize = some cand →
      (∀ q ∈ s.reservations, q.id = cand.id → q = cand) →
      let s2 := manualSendFailureRollback cand.id wlId cand.status
        (markWaitlistContacted as now wlId s)
      s2.reservations = s.reservations ∧
      (∀ w ∈ s2.waitlist, w.id = wlId → w.status = some WStatus.waiting) ∧
      cand.id ∉ s2.inFlightReservationIds ∧
      mapLookup s2.fillTimeouts cand.id = none ∧
      mapLookup s2.pendingWaitlistMatches cand.id = none ∧
      mapLookup s2.pendingFallbackStatuses cand.id = none) := by
  constructor
  · intro s r0 m as now hfind huniq hsel
    have hr0 : r0.status = .expired ∧ r0.id ∉ s.inFlightReservationIds := by
      have := List.find?_some hfind
      simpa using this
    have hs1 : matcherTick as now s = { s with
        reservations := s.reservations.map (fun r =>
          if r.id = r0.id then { r with status := RStatus.processing }
          else r),
        waitlist := s.waitlist.map (fun p =>
          if p.id = m.id then
            { p with
              status := some WStatus.contacted,
              lastContactedAt := some now }
          else p),
        inFlightReservationIds := setInsert s.inFlightReservationIds r0.id,
        pendingWaitlistMatches := mapSet s.pendingWaitlistMatches r0.id m.id,
        pendingFallbackStatuses :=
          mapSet s.pendingFallbackStatuses r0.id .expired,
        fillTimeouts := mapSet s.fillTimeouts r0.id
          (max as.waitlistResponseMinutes 1 * 60000) } := by
      unfold matcherTick
      split
      · rename_i heq
        rw [hfind] at heq
        exact Option.noConfusion heq
      · rename_i r0' heq
        rw [hfind] at heq
        injection heq with h'
        subst h'
        split
        · rename_i hsel'
          rw [hsel] at hsel'
          exact Option.noConfusion hsel'
        · rename_i m' hsel'
          rw [hsel] at hsel'
          injection hsel' with h''
          subst h''
          rfl
    rw [hs1]
    refine ⟨?_, ?_, ?_, ?_, ?_, ?_⟩
    · show (s.reservations.map _).map _ = s.reservations
      rw [List.map_map]
      refine (List.map_congr_left ?_).trans (List.map_id _)
      intro q hq
      simp only [Function.comp_apply, id_eq]
      by_cases hid : q.id = r0.id
      · have hq0 : q = r0 := huniq q hq hid
        subst hq0
        rw [if_pos hid]
        rw [if_pos ⟨hid, rfl⟩]
        exact reservation_status_eta hr0.1
      · rw [if_neg hid]
        rw [if_neg (fun hh => hid hh.1)]
    · exact mem_map_override_status
    · intro hmem
      have h2 : r0.id ∈ setDelete
          (setInsert s.inFlightReservationIds r0.id) r0.id := hmem
      rw [mem_setDelete] at h2
      exact h2.2 rfl
    · exact mapLookup_mapDelete_self _ _
    · exact mapLookup_mapDelete_self _ _
    · exact mapLookup_mapDelete_self _ _
  · intro s entry cand as now wlId hfind hsel huniq
    have hs1 : markWaitlistContacted as now wlId s = { s with
        inFlightReservationIds := setInsert s.inFlightReservationIds cand.id,
        pendingWaitlistMatches := mapSet s.pendingWaitlistMatches cand.id wlId,
        pendingFallbackStatuses :=
          mapSet s.pendingFallbackStatuses cand.id cand.status,
        reservations := s.reservations.map (fun r =>
          if r.id = cand.id then { r with status := RStatus.processing }
          else r),
        fillTimeouts := mapSet s.fillTimeouts cand.id
          (max as.waitlistResponseMinutes 1 * 60000),
        waitlist := s.waitlist.map (fun e =>
          if e.id = wlId then
            { e with
              status := some WStatus.contacted,
              lastContactedAt := some now }
          else e) } := by
      unfold markWaitlistContacted
      split
      · rename_i heq
        rw [hfind] at heq
        exact Option.noConfusion heq
      · rename_i entry' heq
        rw [hfind] at heq
        injection heq with h'
        subst h'
        split
        · rename_i hsel'
          rw [hsel] at hsel'
          exact Option.noConfusion hsel'
        · rename_i cand' hsel'
          rw [hsel] at hsel'
          injection hsel' with h''
          subst h''
          rfl
    rw [hs1]
    refine ⟨?_, ?_, ?_, ?_, ?_, ?_⟩
    · show (s.reservations.map _).map _ = s.reservations
      rw [List.map_map]
      refine (List.map_congr_left ?_).trans (List.map_id _)
      intro q hq
      simp only [Function.comp_apply, id_eq]
      by_cases hid : q.id = cand.id
      · have hq0 : q = cand := huniq q hq hid
        subst hq0
        rw [if_pos hid]
        rw [if_pos ⟨hid, rfl⟩]
      · rw [if_neg hid]
        rw [if_neg (fun hh => hid hh.1)]
    · exact mem_map_override_status
    · intro hmem
      have h2 : cand.id ∈ setDelete
          (setInsert s.inFlightReservationIds cand.id) cand.id := hmem
      rw [mem_setDelete] at h2
      exact h2.2 rfl
    · exact mapLookup_mapDelete_self _ _
    · exact mapLookup_mapDelete_self _ _
    · exact mapLookup_mapDelete_self _ _

def c5Res : Reservation :=
  ⟨"r1", "Alice", "3", "12:00", some 1, 4, .expired, false, none, 240, 0,
    none⟩

def c5Wl : WaitlistEntry := ⟨"w1", "Eve", "5", 4, some .waiting, some 10, none⟩

def c5State : EngineState :=
  { initState with reservations := [c5Res], waitlist := [c5Wl] }

def c5Set : AutomationSettings := ⟨15, 10, .whatsapp⟩

/-- Witness for C5: match then synchronous send-failure rollback restores
the pre-match reservation list, returns the entry to `waiting`, and
clears the bookkeeping, on a concrete state, for both flows. -/
theorem send_failure_rollback_complete_witness :
    (matcherSendFailureRollback "r1" "w1"
      (matcherTick c5Set 7 c5State)).reservations = c5State.reservations ∧
    "r1" ∉ (matcherSendFailureRollback "r1" "w1"
      (matcherTick c5Set 7 c5State)).inFlightReservationIds ∧
    mapLookup (matcherSendFailureRollback "r1" "w1"
      (matcherTick c5Set 7 c5State)).fillTimeouts "r1" = none ∧
    (⟨"w1", "Eve", "5", 4, some .waiting, some 10, some 7⟩ :
      WaitlistEntry).status = some WStatus.waiting ∧
    (manualSendFailureRollback "r1" "w1" RStatus.expired
      (markWaitlistContacted c5Set 7 "w1" c5State)).reservations =
      c5State.reservations := by
  have hA := send_failure_rollback_complete.1 c5State c5Res c5Wl c5Set 7
    (by decide) (by decide) (by decide)
  have hB := send_failure_rollback_complete.2 c5State c5Wl c5Res c5Set 7
    "w1" (by decide) (by decide) (by decide)
  exact ⟨hA.1, hA.2.2.1, hA.2.2.2.1,
    hA.2.1 ⟨"w1", "Eve", "5", 4, some .waiting, some 10, some 7⟩
      (by decide) (by decide), hB.1⟩

def c4ResP : Reservation :=
  ⟨"r1", "Alice", "+32471111111", "19:00", some 1, 4, .processing, false,
    none, 240, 0, none⟩

def c4Wl : WaitlistEntry :=
  ⟨"w1", "Eve", "+32470000000", 4, some .contacted, some 2, some 100⟩

def c4State : EngineState :=
  { initState with
    reservations := [c4ResP], waitlist := [c4Wl],
    inFlightReservationIds := ["r1"], fillTimeouts := [("r1", 600000)],
    pendingWaitlistMatches := [("r1", "w1")] }

def c4Res : Reservation :=
  ⟨"r2", "Bob", "+32472222222", "18:00", some 1, 4, .attention, false,
    none, 240, 1, some 100⟩

def c4Replies : String → Option ReplyPayload := fun _ => some ⟨true, false, 5⟩

/-- Witness for C4: a reply at time 50 < `lastContactedAt` = 100 leaves
the offer step a no-op; a reply at time 5 < `max(100, 1)` leaves the
reservation in place unchanged. -/
theorem stale_reply_immune_witness :
    offerReconcilerStep c4State "r1" "w1" (some ⟨true, false, 50⟩) =
      c4State ∧
    c4Res ∈ confirmationTickReservations c4Replies [c4Res] := by
  constructor
  · exact stale_reply_immune.1 c4State "r1" "w1" (some ⟨true, false, 50⟩)
      c4Wl (by decide) (by decide)
  · exact (stale_reply_immune.2 c4Replies [c4Res] c4Res (by decide)
      (by decide) (by decide)).1

/-- Witness for C1: a confirm reply newer than `lastContactedAt` fills
the table for the waitlist guest and removes the entry. -/
theorem offer_confirm_fills_witness :
    mapLookup (offerReconcilerStep c1State "r1" "w1" c1Payload).fillTimeouts
      "r1" = none ∧
    (⟨"r1", "Eve", "+32470000000", "19:00", some 1, 4, .filled, true,
      some "Alice", 240, 0, none⟩ : Reservation) ∈
      (offerReconcilerStep c1State "r1" "w1" c1Payload).reservations ∧
    (offerReconcilerStep c1State "r1" "w1" c1Payload).waitlist =
      c1State.waitlist.filter (fun w' => w'.id ≠ "w1") :=
  @offer_confirm_fills c1State "r1" "w1" c1Res c1Wl c1Payload (by decide)
    (by decide) rfl (by decide) (by decide) (by decide) rfl

end TableBack
